import Mathlib

/-!
Verification development for the KBE5-Thisway vehicle emulator.

The Python sources are shallowly embedded:
* machine floats become exact rationals (`ℚ`); Python `int(x)` (truncation
  toward zero) becomes `truncInt`, Python `round(x, 6)` (round half to even)
  becomes `round6`;
* `datetime` values become explicit numeric timestamps (seconds);
* `random.*` draws and the network `Sender` outcome are passed in as explicit
  parameters (oracles), so every code path is a pure function of its inputs;
* the trigonometric haversine distance / bearing (`calculate_distance` and the
  `atan2` bearing in the tick worker) are abstracted as function parameters
  `distf` / `bearingf`: no claim depends on their actual values, only (where
  stated as a hypothesis) on nonnegativity of the distance;
* a `dict` keyed by MDN with absent keys behaving like empty queues becomes a
  total function `String → List _` (the code only ever observes emptiness,
  contents and order of the per-key queues).
-/

/-- Python `int()` on a rational: truncation toward zero (T-division). -/
def truncInt (q : ℚ) : ℤ :=
  q.num.tdiv (q.den : ℤ)

/-- Python `round(x, 6)`: round half to even at the 6th decimal. -/
def round6 (q : ℚ) : ℚ :=
  let x : ℚ := q * 1000000
  let f : ℤ := ⌊x⌋
  let r : ℚ := x - (f : ℚ)
  let n : ℤ :=
    if r < 1/2 then f
    else if r > 1/2 then f + 1
    else if Even f then f else f + 1
  (n : ℚ) / 1000000

/-! ## Wire-format records (`models/emulator_data.py`) -/

/-- `GpsLogItem` (pydantic model): one per-second GPS entry, all fields
string-encoded.  The `min=` keyword occasionally passed by the generator is
not a declared field and is dropped by pydantic, so it is not modelled. -/
structure GpsLogItem where
  sec : String
  gcd : String
  lat : String
  lon : String
  ang : String
  spd : String
  sum : String
  bat : String
  deriving Repr, DecidableEq

/-- `GpsLogRequest` (pydantic model). -/
structure GpsLogRequest where
  mdn : String
  tid : String
  mid : String
  pv : String
  did : String
  oTime : String
  cCnt : String
  cList : List GpsLogItem
  deriving Repr, DecidableEq

/-- `PowerLogRequest` (pydantic model). -/
structure PowerLogRequest where
  mdn : String
  tid : String
  mid : String
  pv : String
  did : String
  onTime : String
  offTime : String
  gcd : String
  lat : String
  lon : String
  ang : String
  spd : String
  sum : String
  deriving Repr, DecidableEq

/-! ## Pending-log storage (`services/log_handlers/base_log_handler.py`)

The handler is generic in the record type, mirroring
`Union[GpsLogRequest, PowerLogRequest, GeofenceLogRequest]`. -/

/-- One pending entry as built in `BaseLogHandler.store_log`
(`{"data": ..., "timestamp": datetime.now(), "retry_count": 0, "log_type": ...}`).
Timestamps are integer seconds. -/
structure LogEntry (α : Type) where
  data : α
  timestamp : ℤ
  retry_count : ℕ
  log_type : String
  deriving Repr, DecidableEq

/-- The mutable state of a `BaseLogHandler`: the per-MDN pending queues and
the configuration fields the sweep logic reads.  The backend URL and auth
fields configure the network call and are not part of the queue semantics. -/
structure LogHandler (α : Type) where
  pending_logs : String → List (LogEntry α)
  max_storage_hours : ℕ
  log_type : String

/-- `BaseLogHandler.store_log`: try the immediate send; on success return
`True` with no queue mutation, on failure append a fresh entry
(enqueue time `now`, `retry_count = 0`) to this MDN's queue and still
return `True`.  The `Sender` outcome of `send_log_to_backend` is the
oracle `send`. -/
def store_log {α : Type} (h : LogHandler α) (send : α → Bool) (now : ℤ)
    (mdn : String) (log_data : α) : Bool × LogHandler α :=
  if send log_data then
    (true, h)
  else
    let log_entry : LogEntry α :=
      { data := log_data, timestamp := now, retry_count := 0, log_type := h.log_type }
    (true,
      { h with
        pending_logs := fun m =>
          if m = mdn then h.pending_logs mdn ++ [log_entry] else h.pending_logs m })

/-- The expiry test of `BaseLogHandler.process_pending_logs`:
`current_time - log_entry["timestamp"] >= timedelta(hours=self.max_storage_hours)`. -/
def entryExpired {α : Type} (max_storage_hours : ℕ) (now : ℤ) (e : LogEntry α) : Bool :=
  now - e.timestamp ≥ (max_storage_hours : ℤ) * 3600

/-- One iteration of the `while not self.pending_logs[mdn].empty()` loop in
`process_pending_logs`.  The accumulator carries the `temp_queue` of failed
entries, the `processed_count`, and the trace of records handed to
`send_log_to_backend` (the observable network effect). -/
def sweep_entry {α : Type} (send : α → Bool) (now : ℤ) (max_storage_hours : ℕ)
    (acc : List (LogEntry α) × ℕ × List α) (e : LogEntry α) :
    List (LogEntry α) × ℕ × List α :=
  if entryExpired max_storage_hours now e then
    -- 오래된 로그는 삭제: discarded with no send attempt
    acc
  else
    let attempted := acc.2.2 ++ [e.data]
    if send e.data then
      (acc.1, acc.2.1 + 1, attempted)
    else
      (acc.1 ++ [{ e with retry_count := e.retry_count + 1 }], acc.2.1 + 1, attempted)

/-- `BaseLogHandler.process_pending_logs(mdn)`: drain this MDN's queue,
discard entries past the retention window, retry the rest, re-enqueue
failures (in order) as the new queue.  Returns `(processed_count, trace of
records sent, new handler state)`.  An emptied `temp_queue` and `del
self.pending_logs[mdn]` both denote the empty queue in the map model. -/
def process_pending_logs {α : Type} (h : LogHandler α) (send : α → Bool) (now : ℤ)
    (mdn : String) : ℕ × List α × LogHandler α :=
  let q := h.pending_logs mdn
  let r := q.foldl (sweep_entry send now h.max_storage_hours) ([], 0, [])
  (r.2.1, r.2.2,
    { h with
      pending_logs := fun m => if m = mdn then r.1 else h.pending_logs m })

/-- `BaseLogHandler.get_pending_logs(mdn)`: drain the queue, appending every
entry both to the returned list and to a `temp_queue`, then install the
`temp_queue` as the queue. -/
def get_pending_logs {α : Type} (h : LogHandler α) (mdn : String) :
    List (LogEntry α) × LogHandler α :=
  let q := h.pending_logs mdn
  let r := q.foldl (fun (acc : List (LogEntry α) × List (LogEntry α)) e =>
    (acc.1 ++ [e], acc.2 ++ [e])) ([], [])
  (r.1,
    { h with
      pending_logs := fun m => if m = mdn then r.2 else h.pending_logs m })

/-- `GpsLogHandler(max_storage_hours=1, ...)` as constructed (fresh handler,
log type `"gps"`). -/
def mkGpsLogHandler (max_storage_hours : ℕ) : LogHandler GpsLogRequest :=
  { pending_logs := fun _ => [], max_storage_hours := max_storage_hours, log_type := "gps" }

/-- `PowerLogHandler(max_storage_hours=24, ...)` as constructed. -/
def mkPowerLogHandler (max_storage_hours : ℕ) : LogHandler PowerLogRequest :=
  { pending_logs := fun _ => [], max_storage_hours := max_storage_hours, log_type := "power" }

/-- `LogStorageManager.__init__` wires the three handlers with the retention
windows used by the sweep: GPS 1h, power 24h, geofence 1h.  The geofence
handler is structurally identical to the GPS one except for its log type. -/
structure LogStorageManager where
  gps_handler : LogHandler GpsLogRequest
  power_handler : LogHandler PowerLogRequest
  geofence_storage_hours : ℕ

/-- The handler configuration performed in `LogStorageManager.__init__`:
`GpsLogHandler(max_storage_hours=1, ...)`, `PowerLogHandler(max_storage_hours=24, ...)`,
`GeofenceLogHandler(max_storage_hours=1, ...)`. -/
def LogStorageManager.init : LogStorageManager :=
  { gps_handler := mkGpsLogHandler 1
    power_handler := mkPowerLogHandler 24
    geofence_storage_hours := 1 }

/-- `log_entry["retry_count"] = retry_count + 1` before re-enqueueing. -/
def bumpRetry {α : Type} (e : LogEntry α) : LogEntry α :=
  { e with retry_count := e.retry_count + 1 }

lemma sweep_fold_char {α : Type} (send : α → Bool) (now : ℤ) (mh : ℕ)
    (q : List (LogEntry α)) (t : List (LogEntry α)) (c : ℕ) (s : List α) :
    q.foldl (sweep_entry send now mh) (t, c, s)
      = (t ++ (q.filter fun e => !entryExpired mh now e && !send e.data).map bumpRetry,
         c + (q.filter fun e => !entryExpired mh now e).length,
         s ++ (q.filter fun e => !entryExpired mh now e).map (·.data)) := by
  induction q generalizing t c s with
  | nil => simp
  | cons e q ih =>
    simp only [List.foldl_cons, sweep_entry]
    by_cases he : entryExpired mh now e
    · simp [he, ih]
    · by_cases hs : send e.data
      · simp [he, hs, ih, List.filter_cons, Nat.add_assoc, Nat.add_comm 1]
      · simp [he, hs, ih, List.filter_cons, bumpRetry, Nat.add_assoc, Nat.add_comm 1]

lemma copy_fold_char {α : Type} (q : List (LogEntry α))
    (t s : List (LogEntry α)) :
    q.foldl (fun (acc : List (LogEntry α) × List (LogEntry α)) e =>
        (acc.1 ++ [e], acc.2 ++ [e])) (t, s) = (t ++ q, s ++ q) := by
  induction q generalizing t s with
  | nil => simp
  | cons e q ih => simp [ih]

/-- A sample wire record used to instantiate witnesses. -/
def sampleGpsLog : GpsLogRequest :=
  { mdn := "01012345678", tid := "A001", mid := "6", pv := "5", did := "1",
    oTime := "202501011200", cCnt := "0", cList := [] }

/-- **C1.** `BaseLogHandler.store_log`: when the immediate `Sender` attempt
succeeds, the call returns `True` and the handler (hence the pending queue of
every MDN, in particular its length) is unchanged; when it fails, the call
still returns `True` (storage success), exactly one entry
`{record, enqueue-time = now, retry_count = 0}` is appended to this MDN's
queue for this handler's log kind, and every other queue is untouched. -/
theorem store_log_success_no_mutation_failure_enqueues {α : Type}
    (h : LogHandler α) (send : α → Bool) (now : ℤ) (mdn : String) (d : α) :
    (send d = true → store_log h send now mdn d = (true, h)) ∧
    (send d = false →
      (store_log h send now mdn d).1 = true ∧
      (store_log h send now mdn d).2.pending_logs mdn
        = h.pending_logs mdn
            ++ [{ data := d, timestamp := now, retry_count := 0, log_type := h.log_type }] ∧
      ∀ m, m ≠ mdn → (store_log h send now mdn d).2.pending_logs m = h.pending_logs m) := by
  constructor
  · intro hs
    simp [store_log, hs]
  · intro hs
    refine ⟨by simp [store_log, hs], by simp [store_log, hs], ?_⟩
    intro m hm
    simp [store_log, hs, hm]

/-- Witness for C1 at a concrete failing send. -/
theorem store_log_success_no_mutation_failure_enqueues_witness :
    (store_log (mkGpsLogHandler 1) (fun _ => false) 0 "01012345678" sampleGpsLog).1 = true ∧
    (store_log (mkGpsLogHandler 1) (fun _ => false) 0 "01012345678" sampleGpsLog).2.pending_logs
        "01012345678"
      = [{ data := sampleGpsLog, timestamp := 0, retry_count := 0, log_type := "gps" }] := by
  have h := (store_log_success_no_mutation_failure_enqueues
    (mkGpsLogHandler 1) (fun _ => false) 0 "01012345678" sampleGpsLog).2 rfl
  exact ⟨h.1, by simpa [mkGpsLogHandler] using h.2.1⟩

/-- **C2.** `BaseLogHandler.process_pending_logs` (one sweep of a `(device,
kind)` queue), quantified over every possible `Sender` outcome `send`:
entries whose age `now - timestamp` is at least the retention window
(`max_storage_hours`) are removed and never appear in the trace of records
handed to the Sender — their removal is independent of any Sender outcome;
every younger entry is sent exactly once (the trace is exactly the younger
entries, in order), dropped on success, and re-enqueued at the tail in FIFO
order with `retry_count` incremented on failure.  The retention windows wired
in `LogStorageManager.__init__` are 1 hour for the GPS and geofence handlers
and 24 hours for the power handler. -/
theorem process_pending_logs_sweep {α : Type} (h : LogHandler α)
    (send : α → Bool) (now : ℤ) (mdn : String) :
    ((process_pending_logs h send now mdn).2.2.pending_logs mdn
      = ((h.pending_logs mdn).filter
          (fun e => !entryExpired h.max_storage_hours now e && !send e.data)).map bumpRetry
    ∧ (process_pending_logs h send now mdn).2.1
      = ((h.pending_logs mdn).filter
          (fun e => !entryExpired h.max_storage_hours now e)).map (·.data)
    ∧ (∀ m, m ≠ mdn →
        (process_pending_logs h send now mdn).2.2.pending_logs m = h.pending_logs m))
    ∧ LogStorageManager.init.gps_handler.max_storage_hours = 1
    ∧ LogStorageManager.init.power_handler.max_storage_hours = 24
    ∧ LogStorageManager.init.geofence_storage_hours = 1 := by
  refine ⟨⟨?_, ?_, ?_⟩, rfl, rfl, rfl⟩
  · simp [process_pending_logs, sweep_fold_char]
  · simp [process_pending_logs, sweep_fold_char]
  · intro m hm
    simp [process_pending_logs, hm]

/-- Witness for C2: a queue holding one expired and one fresh entry, swept
with an always-failing Sender: the expired entry vanishes untried, the fresh
one is retried once and re-enqueued with `retry_count` bumped. -/
theorem process_pending_logs_sweep_witness :
    (process_pending_logs
        { pending_logs := fun m =>
            if m = "01012345678" then
              [{ data := sampleGpsLog, timestamp := 0, retry_count := 0, log_type := "gps" },
               { data := sampleGpsLog, timestamp := 3000, retry_count := 0, log_type := "gps" }]
            else [],
          max_storage_hours := 1, log_type := "gps" }
        (fun _ => false) 3700 "01012345678").2.2.pending_logs "01012345678"
      = [{ data := sampleGpsLog, timestamp := 3000, retry_count := 1, log_type := "gps" }] ∧
    (process_pending_logs
        { pending_logs := fun m =>
            if m = "01012345678" then
              [{ data := sampleGpsLog, timestamp := 0, retry_count := 0, log_type := "gps" },
               { data := sampleGpsLog, timestamp := 3000, retry_count := 0, log_type := "gps" }]
            else [],
          max_storage_hours := 1, log_type := "gps" }
        (fun _ => false) 3700 "01012345678").2.1
      = [sampleGpsLog] := by
  have h := process_pending_logs_sweep
    { pending_logs := fun m =>
        if m = "01012345678" then
          [{ data := sampleGpsLog, timestamp := 0, retry_count := 0, log_type := "gps" },
           { data := sampleGpsLog, timestamp := 3000, retry_count := 0, log_type := "gps" }]
        else [],
      max_storage_hours := 1, log_type := "gps" }
    (fun _ => false) 3700 "01012345678"
  refine ⟨?_, ?_⟩
  · rw [h.1.1]
    decide
  · rw [h.1.2.1]
    decide

/-- **C10.** `BaseLogHandler.get_pending_logs` is non-destructive: the
returned list is exactly the pending queue of the requested MDN in queue
order, and the handler state after the call (queues of every MDN, contents
and order) is identical to the state before. -/
theorem get_pending_logs_nondestructive {α : Type} (h : LogHandler α)
    (mdn : String) :
    (get_pending_logs h mdn).1 = h.pending_logs mdn ∧
    (get_pending_logs h mdn).2 = h := by
  constructor
  · simp [get_pending_logs, copy_fold_char]
  · show ({ h with pending_logs := _ } : LogHandler α) = h
    cases h with
    | mk p mh lt =>
      simp only [get_pending_logs, copy_fold_char, List.nil_append]
      congr 1
      funext m
      by_cases hm : m = mdn <;> simp [hm]

/-! ## Emulator state (`services/emulator_manager.py`)

`active_emulators` is a single-key dict `{self.mdn: self.get_emulator_dict()}`
refreshed from the manager's own attributes by every state mutation in the
modelled flows; reads of `emulator["..."]` are therefore modelled as reads of
the corresponding manager field.  Debug-only fields (`last_update`,
`last_gps_batch_data`, thread/timer handles) carry no claim content and are
omitted. -/

/-- A `datetime` as far as the generators consume one: an absolute second
count (for differences) plus the calendar minute/second components. -/
structure PyTimestamp where
  total_seconds : ℚ
  minute : ℕ
  second : ℕ
  deriving Repr, DecidableEq

/-- One entry of `collecting_data` as appended by `_data_collection_worker`. -/
structure CollectedPoint where
  timestamp : PyTimestamp
  latitude : ℚ
  longitude : ℚ
  speed : ℚ
  angle : ℚ
  battery : ℚ
  deriving Repr, DecidableEq

/-- The mutable state of `EmulatorManager`. -/
structure EmulatorManager where
  mdn : String
  terminal_id : String
  manufacture_id : ℤ
  packet_version : ℤ
  device_id : ℤ
  device_firmware_version : String
  last_latitude : ℚ
  last_longitude : ℚ
  is_active : Bool
  accumulated_distance : ℚ
  mdn_accumulated_distances : String → Option ℚ
  last_position : ℚ × ℚ
  last_positions : String → Option (ℚ × ℚ)
  /-- `getattr(self, "last_power_on_time", "")`: the attribute is created on
  the first power-on; the empty string denotes "never set" (both are falsy
  at the only read site). -/
  last_power_on_time : String
  kakao_route_points : List (ℚ × ℚ)
  current_route_index : ℕ
  collecting_data : List CollectedPoint
  has_data_callback : Bool

/-- `EmulatorManager.is_emulator_active`: an MDN argument differing from the
manager's own MDN reports inactive; otherwise the active flag. -/
def is_emulator_active (m : EmulatorManager) (mdn : Option String) : Bool :=
  match mdn with
  | some s => if s ≠ m.mdn then false else m.is_active
  | none => m.is_active

/-- `EmulatorManager.get_accumulated_distance`: 0 for a foreign MDN, else the
odometer. -/
def get_accumulated_distance (m : EmulatorManager) (mdn : Option String) : ℚ :=
  match mdn with
  | some s => if s ≠ m.mdn then 0 else m.accumulated_distance
  | none => m.accumulated_distance

/-- `EmulatorManager.update_accumulated_distance(distance, mdn)`: reject a
foreign MDN, else overwrite the odometer (the argument is an `int` at every
call site: `int(total_distance)`). -/
def update_accumulated_distance (m : EmulatorManager) (distance : ℤ)
    (mdn : Option String) : Bool × EmulatorManager :=
  match mdn with
  | some s =>
    if s ≠ m.mdn then (false, m)
    else
      (true,
        { m with
          accumulated_distance := (distance : ℚ)
          mdn_accumulated_distances := fun k =>
            if k = m.mdn then some ((distance : ℚ)) else m.mdn_accumulated_distances k })
  | none =>
      (true,
        { m with
          accumulated_distance := (distance : ℚ)
          mdn_accumulated_distances := fun k =>
            if k = m.mdn then some ((distance : ℚ)) else m.mdn_accumulated_distances k })

/-- `EmulatorManager.update_emulator_position(latitude, longitude, distance)`:
always accept the new position; add `distance` to the odometer only when it
is strictly positive. -/
def update_emulator_position (m : EmulatorManager) (latitude longitude : ℚ)
    (distance : ℚ) : EmulatorManager :=
  let m1 := { m with last_latitude := latitude, last_longitude := longitude }
  let m2 :=
    if distance > 0 then
      { m1 with
        accumulated_distance := m1.accumulated_distance + distance
        mdn_accumulated_distances := fun k =>
          if k = m1.mdn then some (m1.accumulated_distance + distance)
          else m1.mdn_accumulated_distances k }
    else m1
  { m2 with
    last_positions := fun k =>
      if k = m2.mdn then some (latitude, longitude) else m2.last_positions k }

/-- `if terminal_id: self.terminal_id = terminal_id` (skips `None` and `""`). -/
def set_terminal_id (m : EmulatorManager) (t : Option String) : EmulatorManager :=
  match t with
  | some v => if v ≠ "" then { m with terminal_id := v } else m
  | none => m

/-- `if manufacture_id: ...` (skips `None` and `0`). -/
def set_manufacture_id (m : EmulatorManager) (t : Option ℤ) : EmulatorManager :=
  match t with
  | some v => if v ≠ 0 then { m with manufacture_id := v } else m
  | none => m

/-- `if packet_version: ...` (skips `None` and `0`). -/
def set_packet_version (m : EmulatorManager) (t : Option ℤ) : EmulatorManager :=
  match t with
  | some v => if v ≠ 0 then { m with packet_version := v } else m
  | none => m

/-- `if device_id: ...` (skips `None` and `0`). -/
def set_device_id (m : EmulatorManager) (t : Option ℤ) : EmulatorManager :=
  match t with
  | some v => if v ≠ 0 then { m with device_id := v } else m
  | none => m

/-- `if device_firmware_version: ...` (skips `None` and `""`). -/
def set_firmware (m : EmulatorManager) (t : Option String) : EmulatorManager :=
  match t with
  | some v => if v ≠ "" then { m with device_firmware_version := v } else m
  | none => m

/-- The five truthiness-guarded identifier updates at the top of
`EmulatorManager.start_emulator`. -/
def apply_start_args (m : EmulatorManager) (terminal_id : Option String)
    (manufacture_id packet_version device_id : Option ℤ)
    (device_firmware_version : Option String) : EmulatorManager :=
  set_firmware (set_device_id (set_packet_version (set_manufacture_id
    (set_terminal_id m terminal_id) manufacture_id) packet_version) device_id)
    device_firmware_version

/-- `EmulatorManager.start_emulator`: reseed the position, overwrite the
protocol identifiers that are passed truthy (`apply_start_args`), activate,
and resume the per-MDN odometer -- initialising it to 0 only for an MDN that
has never run.  Unconditionally returns `True`. -/
def EmulatorManager.start_emulator (m : EmulatorManager)
    (seed_latitude seed_longitude : ℚ)
    (terminal_id : Option String) (manufacture_id packet_version device_id : Option ℤ)
    (device_firmware_version : Option String) : Bool × EmulatorManager :=
  let m := { m with last_latitude := seed_latitude, last_longitude := seed_longitude }
  let m := apply_start_args m terminal_id manufacture_id packet_version device_id
    device_firmware_version
  let m := { m with is_active := true }
  -- 새 MDN인 경우에만 누적 거리를 초기화
  let m :=
    if (m.mdn_accumulated_distances m.mdn).isNone then
      { m with
        mdn_accumulated_distances := fun k =>
          if k = m.mdn then some 0 else m.mdn_accumulated_distances k }
    else m
  -- 저장된 누적 거리 사용
  let m := { m with accumulated_distance := (m.mdn_accumulated_distances m.mdn).getD 0 }
  let m := { m with last_position := (seed_latitude, seed_longitude) }
  let m :=
    { m with
      last_positions := fun k =>
        if k = m.mdn then some (seed_latitude, seed_longitude) else m.last_positions k }
  (true, m)

/-! ## Heading smoothing (`_data_collection_worker`, lines 546-555; the
identical computation appears in
`log_generators/gps_log_generator.py` lines 165-174). -/

/-- The smoothing applied to a freshly computed bearing `angle` against the
previous heading `prev_angle`:
`angle_diff = abs(angle - prev_angle); if angle_diff > 180: angle_diff = 360
- angle_diff; if angle_diff < 180: angle = prev_angle*0.8 + angle*0.2`. -/
def smooth_angle (prev_angle angle : ℚ) : ℚ :=
  let angle_diff := |angle - prev_angle|
  let angle_diff := if angle_diff > 180 then 360 - angle_diff else angle_diff
  if angle_diff < 180 then prev_angle * (8/10) + angle * (2/10) else angle

/-- **C6 counterexample.**  At previous heading 350° and new bearing 10° the
raw angular delta is 340° > 180°, yet the code does not snap to the new
bearing: the wrap-corrected difference 20° passes the `< 180` test and the
naive blend `350*0.8 + 10*0.2 = 282` is produced instead of `10`. -/
theorem smooth_angle_not_snap_at_350_10 :
    |(10 : ℚ) - 350| > 180 ∧ smooth_angle 350 10 = 282 ∧ (282 : ℚ) ≠ 10 := by
  refine ⟨by norm_num, ?_, by norm_num⟩
  norm_num [smooth_angle, abs_of_nonpos]

/-- **C6 (amended).**  For headings in `[0, 360)`, the code smooths with the
plain blend `0.8*prev + 0.2*new` in every case — including raw deltas above
180° — except the single boundary case `|new - prev| = 180`, where the
wrap-corrected difference fails the strict `< 180` test and the heading
snaps to the new bearing.  (The claimed snap-on-large-delta never happens:
a raw delta above 180° wraps to below 180° and is blended naively.) -/
theorem smooth_angle_amended (prev_angle angle : ℚ)
    (hp0 : 0 ≤ prev_angle) (hp1 : prev_angle < 360)
    (ha0 : 0 ≤ angle) (ha1 : angle < 360) :
    smooth_angle prev_angle angle
      = if |angle - prev_angle| = 180 then angle
        else prev_angle * (8/10) + angle * (2/10) := by
  have hlt : |angle - prev_angle| < 360 := by
    rw [abs_sub_lt_iff]
    constructor <;> linarith
  rcases lt_trichotomy (|angle - prev_angle|) 180 with hd | hd | hd
  · rw [if_neg (by intro h; rw [h] at hd; exact lt_irrefl _ hd)]
    simp only [smooth_angle]
    rw [if_neg (not_lt.mpr hd.le), if_pos hd]
  · rw [if_pos hd]
    simp only [smooth_angle, hd]
    norm_num
  · rw [if_neg (by intro h; rw [h] at hd; exact lt_irrefl _ hd)]
    simp only [smooth_angle]
    rw [if_pos hd, if_pos (show 360 - |angle - prev_angle| < 180 by linarith)]

/-- Witness for C6 amended: a small-delta blend evaluated concretely. -/
theorem smooth_angle_amended_witness : smooth_angle 100 10 = 82 := by
  have h := smooth_angle_amended 100 10 (by norm_num) (by norm_num)
    (by norm_num) (by norm_num)
  rw [h]
  norm_num

/-! ## Route interpolation
(`log_generators/gps_log_generator.py`, `_interpolate_points`)

`_interpolate_points` computes `points_per_segment`, the per-segment
allocation `int(pps*(i+1)) - int(pps*i)` and the interpolation ratios in
Python floats, i.e. IEEE-754 binary64.  The embedding models every float
operation as `fl64` — correct rounding (round-to-nearest, ties-to-even)
of the exact rational result to 53 significant bits.  All values reached
here are in binary64's normal range (the branch below runs only for
`2 ≤ len(points) < target_count`, so magnitudes lie between `2⁻⁵⁰`-ish
and `2⁵⁰`-ish), where this model is exact. -/

/-- Fuel-driven binary length: `natBits fuel n` is the number of binary
digits of `n`, provided `n ≤ fuel`. -/
def natBits : ℕ → ℕ → ℕ
  | 0, _ => 0
  | fuel + 1, n => if n = 0 then 0 else natBits fuel (n / 2) + 1

/-- Binary length of a natural number (`⌊log₂ n⌋ + 1` for `n ≥ 1`). -/
def bits (n : ℕ) : ℕ := natBits n n

/-- The binary exponent of a positive rational: the unique `e` with
`2 ^ e ≤ q < 2 ^ (e + 1)` (see `exp2_spec`). -/
def exp2 (q : ℚ) : ℤ :=
  if 1 ≤ q then (bits ⌊q⌋₊ : ℤ) - 1
  else -(bits (⌈q⁻¹⌉₊ - 1) : ℤ)

/-- `2 ^ k` over ℚ for an integer `k`, computed with `Nat.pow`. -/
def pow2z (k : ℤ) : ℚ :=
  if 0 ≤ k then ((2 ^ k.toNat : ℕ) : ℚ) else 1 / ((2 ^ (-k).toNat : ℕ) : ℚ)

/-- Round to the nearest integer, ties to even. -/
def rne (q : ℚ) : ℤ :=
  if q - ⌊q⌋ < 1 / 2 then ⌊q⌋
  else if 1 / 2 < q - ⌊q⌋ then ⌊q⌋ + 1
  else if ⌊q⌋ % 2 = 0 then ⌊q⌋ else ⌊q⌋ + 1

/-- Binary64 rounding of a positive rational: the significand
`q / 2 ^ (exp2 q - 52)` (a value in `[2⁵², 2⁵³)`) is rounded
ties-to-even and scaled back. -/
def fl64pos (q : ℚ) : ℚ :=
  (rne (q / pow2z (exp2 q - 52)) : ℚ) * pow2z (exp2 q - 52)

/-- IEEE-754 binary64 rounding (normal range; no overflow or subnormals,
which are out of reach for the quantities of `_interpolate_points`). -/
def fl64 (q : ℚ) : ℚ :=
  if q = 0 then 0 else if q < 0 then -fl64pos (-q) else fl64pos q

/-- A provider route vertex `{"latitude": ..., "longitude": ...}`. -/
structure RoutePoint where
  latitude : ℚ
  longitude : ℚ
  deriving Repr, DecidableEq, Inhabited

/-- One iteration of the `for i in range(segments)` loop of
`_interpolate_points`: the `interpolation_count = int(pps*(i+1)) -
int(pps*i)` intermediate points of segment `i` (binary64 products, `int`
truncation; Python's `range` treats a negative count as zero, hence
`.toNat`), each linearly interpolated at ratio `j / (count + 1)` with
every float operation rounded, followed by the segment's end point for
every segment but the last. -/
def interp_chunk (points : List RoutePoint) (pps : ℚ) (segments : ℕ)
    (i : ℕ) : List RoutePoint :=
  let interpolation_count :=
    (truncInt (fl64 (pps * ((i : ℚ) + 1))) - truncInt (fl64 (pps * (i : ℚ)))).toNat
  let start_point := points.getD i default
  let end_point := points.getD (i + 1) default
  ((List.range interpolation_count).map fun j : ℕ =>
    let ratio : ℚ := fl64 (((j : ℚ) + 1) / ((interpolation_count : ℚ) + 1))
    { latitude := fl64 (start_point.latitude +
        fl64 (fl64 (end_point.latitude - start_point.latitude) * ratio))
      longitude := fl64 (start_point.longitude +
        fl64 (fl64 (end_point.longitude - start_point.longitude) * ratio)) })
  ++ (if i < segments - 1 then [end_point] else [])

/-- `GpsLogGenerator._interpolate_points(points, target_count)`: identity
for lists of at most one point or already at/above the target; otherwise
the first point, the per-segment chunks — `points_per_segment =
(target_count - len(points)) / segments` is a binary64 division — and the
last point. -/
def interpolate_points (points : List RoutePoint) (target_count : ℕ) :
    List RoutePoint :=
  if points.length ≤ 1 then points
  else if target_count ≤ points.length then points
  else
    let segments := points.length - 1
    let pps : ℚ := fl64 (((target_count : ℚ) - points.length) / segments)
    points.getD 0 default
      :: ((List.range segments).flatMap (interp_chunk points pps segments)
          ++ [points.getLast?.getD default])

lemma truncInt_eq_floor (q : ℚ) (h : 0 ≤ q) : truncInt q = ⌊q⌋ := by
  rw [truncInt, Rat.floor_def, Int.tdiv_eq_ediv (Rat.num_nonneg.mpr h) (by positivity)]

lemma natBits_zero (fuel : ℕ) : natBits fuel 0 = 0 := by
  cases fuel <;> simp [natBits]

lemma natBits_spec (fuel : ℕ) : ∀ n : ℕ, 1 ≤ n → n ≤ fuel →
    2 ^ (natBits fuel n - 1) ≤ n ∧ n < 2 ^ natBits fuel n := by
  induction fuel with
  | zero => intro n h1 h2; omega
  | succ fuel ih =>
    intro n h1 h2
    rw [natBits, if_neg (by omega)]
    rcases Nat.lt_or_ge n 2 with hn | hn
    · have hn1 : n = 1 := by omega
      subst hn1
      simp [natBits_zero]
    · have hhalf1 : 1 ≤ n / 2 := by omega
      have hhalf2 : n / 2 ≤ fuel := by omega
      obtain ⟨ihl, ihr⟩ := ih (n / 2) hhalf1 hhalf2
      set b := natBits fuel (n / 2) with hb
      have hbpos : 1 ≤ b := by
        rcases Nat.eq_zero_or_pos b with h0 | h0
        · rw [h0] at ihr; omega
        · exact h0
      constructor
      · have hsplit : 2 ^ (b + 1 - 1) = 2 * 2 ^ (b - 1) := by
          rw [Nat.add_sub_cancel]
          conv_lhs => rw [show b = b - 1 + 1 by omega]
          rw [pow_succ]
          ring
        rw [hsplit]
        omega
      · rw [pow_succ]
        omega

lemma bits_spec (n : ℕ) (h : 1 ≤ n) : 2 ^ (bits n - 1) ≤ n ∧ n < 2 ^ bits n :=
  natBits_spec n n h le_rfl

lemma bits_pos (n : ℕ) (h : 1 ≤ n) : 1 ≤ bits n := by
  obtain ⟨_, hr⟩ := bits_spec n h
  rcases Nat.eq_zero_or_pos (bits n) with h0 | h0
  · rw [h0] at hr; omega
  · exact h0

lemma exp2_spec (q : ℚ) (hq : 0 < q) :
    (2 : ℚ) ^ exp2 q ≤ q ∧ q < 2 ^ (exp2 q + 1) := by
  rw [exp2]
  split_ifs with h1
  · have hfl : 1 ≤ ⌊q⌋₊ := Nat.floor_pos.mpr h1
    obtain ⟨hl, hr⟩ := bits_spec ⌊q⌋₊ hfl
    have hbp : 1 ≤ bits ⌊q⌋₊ := bits_pos _ hfl
    set b := bits ⌊q⌋₊ with hbdef
    constructor
    · rw [show (b : ℤ) - 1 = ((b - 1 : ℕ) : ℤ) by omega, zpow_natCast]
      calc (2 : ℚ) ^ (b - 1 : ℕ) = ((2 ^ (b - 1 : ℕ) : ℕ) : ℚ) := by push_cast; ring
        _ ≤ (⌊q⌋₊ : ℚ) := by exact_mod_cast hl
        _ ≤ q := Nat.floor_le hq.le
    · rw [show (b : ℤ) - 1 + 1 = ((b : ℕ) : ℤ) by omega, zpow_natCast]
      have h2 : q < ⌊q⌋₊ + 1 := Nat.lt_floor_add_one q
      have h3 : ((⌊q⌋₊ + 1 : ℕ) : ℚ) ≤ ((2 ^ b : ℕ) : ℚ) := by exact_mod_cast hr
      push_cast at h3
      calc q < (⌊q⌋₊ : ℚ) + 1 := h2
        _ ≤ (2 : ℚ) ^ (b : ℕ) := by linarith
  · push_neg at h1
    have hr1 : 1 < q⁻¹ := (one_lt_inv₀ hq).mpr h1
    have hm2 : 2 ≤ ⌈q⁻¹⌉₊ := by
      have := Nat.lt_ceil.mpr (show ((1 : ℕ) : ℚ) < q⁻¹ by exact_mod_cast hr1)
      omega
    have hceilq : q⁻¹ ≤ (⌈q⁻¹⌉₊ : ℚ) := Nat.le_ceil q⁻¹
    have hceilq2 : (⌈q⁻¹⌉₊ : ℚ) < q⁻¹ + 1 := Nat.ceil_lt_add_one (by positivity)
    obtain ⟨hl, hr⟩ := bits_spec (⌈q⁻¹⌉₊ - 1) (by omega)
    have hcp : 1 ≤ bits (⌈q⁻¹⌉₊ - 1) := bits_pos _ (by omega)
    set c := bits (⌈q⁻¹⌉₊ - 1) with hcdef
    set m := ⌈q⁻¹⌉₊ with hmdef
    clear_value c m
    have hmle : m ≤ 2 ^ c := by omega
    have hrle : q⁻¹ ≤ ((2 ^ c : ℕ) : ℚ) := by
      calc q⁻¹ ≤ (m : ℚ) := hceilq
        _ ≤ ((2 ^ c : ℕ) : ℚ) := by exact_mod_cast hmle
    have hrgt : ((2 ^ (c - 1) : ℕ) : ℚ) < q⁻¹ := by
      have hcast : ((m - 1 : ℕ) : ℚ) = (m : ℚ) - 1 := by
        rw [Nat.cast_sub (by omega : 1 ≤ m), Nat.cast_one]
      calc ((2 ^ (c - 1) : ℕ) : ℚ) ≤ ((m - 1 : ℕ) : ℚ) := by exact_mod_cast hl
        _ = (m : ℚ) - 1 := hcast
        _ < q⁻¹ := by linarith
    have hpowpos : (0 : ℚ) < ((2 ^ c : ℕ) : ℚ) := by positivity
    have hpowpos2 : (0 : ℚ) < ((2 ^ (c - 1) : ℕ) : ℚ) := by positivity
    constructor
    · rw [show -((c : ℕ) : ℤ) = -(((c : ℕ) : ℤ)) by rfl, zpow_neg, zpow_natCast]
      rw [show ((2 : ℚ) ^ (c : ℕ)) = ((2 ^ c : ℕ) : ℚ) by push_cast; ring]
      rw [inv_le_comm₀ hpowpos hq]
      exact hrle
    · rw [show -((c : ℕ) : ℤ) + 1 = -(((c - 1 : ℕ) : ℤ)) by omega, zpow_neg, zpow_natCast]
      rw [show ((2 : ℚ) ^ (c - 1 : ℕ)) = ((2 ^ (c - 1) : ℕ) : ℚ) by push_cast; ring]
      rw [lt_inv_comm₀ hq hpowpos2]
      exact hrgt

lemma rne_floor_le (q : ℚ) : ⌊q⌋ ≤ rne q := by
  rw [rne]
  split_ifs <;> omega

lemma rne_le (q : ℚ) : rne q ≤ ⌊q⌋ + 1 := by
  rw [rne]
  split_ifs <;> omega

lemma rne_err (q : ℚ) : |(rne q : ℚ) - q| ≤ 1 / 2 := by
  have h1 : (⌊q⌋ : ℚ) ≤ q := Int.floor_le q
  have h2 : q < ⌊q⌋ + 1 := Int.lt_floor_add_one q
  rw [rne]
  split_ifs with ha hb hc <;>
  · rw [abs_le]
    push_cast
    constructor <;> linarith

lemma rne_mono {x y : ℚ} (hxy : x ≤ y) : rne x ≤ rne y := by
  have hf : ⌊x⌋ ≤ ⌊y⌋ := Int.floor_le_floor hxy
  rcases lt_or_eq_of_le hf with hlt | heq
  · have h1 := rne_le x
    have h2 := rne_floor_le y
    omega
  · rw [rne, rne, ← heq]
    have hyx : y - (⌊x⌋ : ℚ) ≥ x - ⌊x⌋ := by linarith
    split_ifs <;> first | omega | (exfalso; linarith)

lemma pow2z_eq (k : ℤ) : pow2z k = (2 : ℚ) ^ k := by
  rw [pow2z]
  split_ifs with h
  · conv_rhs => rw [show k = (k.toNat : ℤ) by omega]
    rw [zpow_natCast]
    push_cast
    ring
  · conv_rhs => rw [show k = -(((-k).toNat : ℤ)) by omega]
    rw [zpow_neg, zpow_natCast, one_div]
    push_cast
    ring

lemma two_zpow_mul (k : ℕ) (e f : ℤ) (hef : (k : ℤ) + f = e) :
    ((2 ^ k : ℤ) : ℚ) * 2 ^ f = 2 ^ e := by
  have h1 : ((2 ^ k : ℤ) : ℚ) = (2 : ℚ) ^ (k : ℤ) := by
    rw [zpow_natCast]
    norm_cast
  rw [h1, ← zpow_add₀ (by norm_num : (2 : ℚ) ≠ 0), hef]

lemma fl64pos_err (q : ℚ) (hq : 0 < q) : |fl64pos q - q| ≤ q / 2 ^ 53 := by
  rw [fl64pos, pow2z_eq]
  set e := exp2 q with he
  have hspos : (0 : ℚ) < (2 : ℚ) ^ (e - 52) := by positivity
  have hkey : ((rne (q / 2 ^ (e - 52)) : ℚ)) * 2 ^ (e - 52) - q
      = ((rne (q / 2 ^ (e - 52)) : ℚ) - q / 2 ^ (e - 52)) * 2 ^ (e - 52) := by
    field_simp
  rw [hkey, abs_mul, abs_of_pos hspos]
  have h1 := rne_err (q / 2 ^ (e - 52))
  have h2 := (exp2_spec q hq).1
  calc |(rne (q / 2 ^ (e - 52)) : ℚ) - q / 2 ^ (e - 52)| * 2 ^ (e - 52)
      ≤ (1 / 2) * 2 ^ (e - 52) := by
        exact mul_le_mul_of_nonneg_right h1 hspos.le
    _ = 2 ^ (e - 53) := by
        rw [show e - 53 = (e - 52) + (-1) by ring, zpow_add₀ (by norm_num : (2 : ℚ) ≠ 0)]
        norm_num
        ring
    _ ≤ q / 2 ^ 53 := by
        rw [show e - 53 = e + (-53) by ring, zpow_add₀ (by norm_num : (2 : ℚ) ≠ 0),
          div_eq_mul_inv]
        have hz : ((2 : ℚ) ^ (-53 : ℤ)) = ((2 : ℚ) ^ (53 : ℕ))⁻¹ := by
          rw [zpow_neg]
          norm_num
        rw [hz]
        exact mul_le_mul_of_nonneg_right h2 (by positivity)

lemma fl64pos_ge (q : ℚ) (hq : 0 < q) : (2 : ℚ) ^ exp2 q ≤ fl64pos q := by
  rw [fl64pos, pow2z_eq]
  set e := exp2 q with he
  have hspos : (0 : ℚ) < (2 : ℚ) ^ (e - 52) := by positivity
  have h2 := (exp2_spec q hq).1
  have hqs : ((2 ^ 52 : ℤ) : ℚ) ≤ q / 2 ^ (e - 52) := by
    rw [le_div_iff₀ hspos, two_zpow_mul 52 e (e - 52) (by omega)]
    exact h2
  have hfl : (2 ^ 52 : ℤ) ≤ rne (q / 2 ^ (e - 52)) :=
    le_trans (Int.le_floor.mpr hqs) (rne_floor_le _)
  calc (2 : ℚ) ^ e = ((2 ^ 52 : ℤ) : ℚ) * 2 ^ (e - 52) :=
        (two_zpow_mul 52 e (e - 52) (by omega)).symm
    _ ≤ (rne (q / 2 ^ (e - 52)) : ℚ) * 2 ^ (e - 52) := by
        exact mul_le_mul_of_nonneg_right (by exact_mod_cast hfl) hspos.le

lemma fl64pos_le (q : ℚ) (hq : 0 < q) : fl64pos q ≤ (2 : ℚ) ^ (exp2 q + 1) := by
  rw [fl64pos, pow2z_eq]
  set e := exp2 q with he
  have hspos : (0 : ℚ) < (2 : ℚ) ^ (e - 52) := by positivity
  have h2 := (exp2_spec q hq).2
  have hqs : q / 2 ^ (e - 52) < ((2 ^ 53 : ℤ) : ℚ) := by
    rw [div_lt_iff₀ hspos, two_zpow_mul 53 (e + 1) (e - 52) (by omega)]
    exact h2
  have hfl : rne (q / 2 ^ (e - 52)) ≤ 2 ^ 53 := by
    have := Int.floor_lt.mpr hqs
    have := rne_le (q / 2 ^ (e - 52))
    omega
  calc (rne (q / 2 ^ (e - 52)) : ℚ) * 2 ^ (e - 52)
      ≤ ((2 ^ 53 : ℤ) : ℚ) * 2 ^ (e - 52) := by
        exact mul_le_mul_of_nonneg_right (by exact_mod_cast hfl) hspos.le
    _ = 2 ^ (e + 1) := two_zpow_mul 53 (e + 1) (e - 52) (by omega)

lemma exp2_mono {x y : ℚ} (hx : 0 < x) (hxy : x ≤ y) : exp2 x ≤ exp2 y := by
  have h1 := (exp2_spec x hx).1
  have h2 := (exp2_spec y (lt_of_lt_of_le hx hxy)).2
  by_contra h
  push_neg at h
  have hle : exp2 y + 1 ≤ exp2 x := by omega
  have : (2 : ℚ) ^ (exp2 y + 1) ≤ 2 ^ exp2 x :=
    zpow_le_zpow_right₀ (by norm_num) hle
  linarith

lemma fl64_zero : fl64 0 = 0 := by
  rw [fl64, if_pos rfl]

lemma fl64_of_pos {q : ℚ} (hq : 0 < q) : fl64 q = fl64pos q := by
  rw [fl64, if_neg hq.ne', if_neg (not_lt.mpr hq.le)]

lemma fl64_nonneg {q : ℚ} (h : 0 ≤ q) : 0 ≤ fl64 q := by
  rcases eq_or_lt_of_le h with h0 | hpos
  · rw [← h0, fl64_zero]
  · rw [fl64_of_pos hpos]
    have h1 := fl64pos_ge q hpos
    have h2 : (0 : ℚ) < 2 ^ exp2 q := by positivity
    linarith

lemma fl64_mono {x y : ℚ} (hx : 0 ≤ x) (hxy : x ≤ y) : fl64 x ≤ fl64 y := by
  rcases eq_or_lt_of_le hx with h0 | hxpos
  · rw [← h0, fl64_zero]
    exact fl64_nonneg (le_trans hx hxy)
  · have hy : 0 < y := lt_of_lt_of_le hxpos hxy
    rw [fl64_of_pos hxpos, fl64_of_pos hy]
    rcases lt_or_eq_of_le (exp2_mono hxpos hxy) with he | he
    · calc fl64pos x ≤ 2 ^ (exp2 x + 1) := fl64pos_le x hxpos
        _ ≤ 2 ^ exp2 y := zpow_le_zpow_right₀ (by norm_num) (by omega)
        _ ≤ fl64pos y := fl64pos_ge y hy
    · rw [fl64pos, fl64pos, pow2z_eq, pow2z_eq, ← he]
      have hspos : (0 : ℚ) < (2 : ℚ) ^ (exp2 x - 52) := by positivity
      have hdiv : x / 2 ^ (exp2 x - 52) ≤ y / 2 ^ (exp2 x - 52) := by gcongr
      exact mul_le_mul_of_nonneg_right
        (by exact_mod_cast rne_mono hdiv) hspos.le

lemma fl64_bounds (q : ℚ) (hq : 0 < q) :
    q - q / 2 ^ 53 ≤ fl64 q ∧ fl64 q ≤ q + q / 2 ^ 53 := by
  have h := fl64pos_err q hq
  rw [abs_le] at h
  rw [fl64_of_pos hq]
  constructor <;> linarith [h.1, h.2]

lemma telescope_toNat_sum (f : ℕ → ℤ) (hf : Monotone f) (n : ℕ) :
    ((List.range n).map fun i => (f (i + 1) - f i).toNat).sum = (f n - f 0).toNat := by
  induction n with
  | zero => simp
  | succ n ih =>
    rw [List.range_succ, List.map_append, List.sum_append, ih]
    have h1 : f 0 ≤ f n := hf (Nat.zero_le n)
    have h2 : f n ≤ f (n + 1) := hf (Nat.le_succ n)
    simp only [List.map_cons, List.map_nil, List.sum_cons, List.sum_nil]
    omega

lemma sum_tail_indicator (n : ℕ) :
    ((List.range n).map fun i => if i < n - 1 then 1 else 0).sum = n - 1 := by
  cases n with
  | zero => simp
  | succ m =>
    rw [List.range_succ, List.map_append, List.sum_append]
    simp only [Nat.add_sub_cancel]
    have hmap : ((List.range m).map fun i => if i < m then (1 : ℕ) else 0)
        = (List.range m).map fun _ => 1 := by
      apply List.map_congr_left
      intro i hi
      simp [List.mem_range.mp hi]
    simp [hmap]

lemma interp_chunk_length (points : List RoutePoint) (pps : ℚ) (segments i : ℕ) :
    (interp_chunk points pps segments i).length
      = (truncInt (fl64 (pps * ((i : ℚ) + 1))) - truncInt (fl64 (pps * (i : ℚ)))).toNat
        + (if i < segments - 1 then 1 else 0) := by
  rw [interp_chunk]
  by_cases h : i < segments - 1 <;> simp [h]

/-- **C7 (amended).**  `_interpolate_points` on a list of at least 2 points
and strictly below the target count preserves the input's first and last
points at the two ends and returns *either* `target_count` *or*
`target_count - 1` points: the per-segment allocation telescopes to
`int(fl(points_per_segment) ⊗ segments)` in binary64, which equals
`target_count - len(points)` when the product rounds exactly but can lose
an ulp and fall one short (the code logs a warning in that case).  A list
of at most one point, or already at or above the target count, is returned
unchanged.  The bound `target_count ≤ 2 ^ 50` keeps the accumulated
relative rounding error below one point. -/
theorem interpolate_points_amended (points : List RoutePoint) (target_count : ℕ)
    (hbound : target_count ≤ 2 ^ 50) :
    (2 ≤ points.length → points.length < target_count →
      (interpolate_points points target_count).head? = points.head? ∧
      (interpolate_points points target_count).getLast? = points.getLast? ∧
      target_count - 1 ≤ (interpolate_points points target_count).length ∧
      (interpolate_points points target_count).length ≤ target_count) ∧
    (points.length ≤ 1 ∨ target_count ≤ points.length →
      interpolate_points points target_count = points) := by
  constructor
  · intro h2 hlt
    have hne : points ≠ [] := by
      intro h
      rw [h] at h2
      simp at h2
    have hb1 : ¬ points.length ≤ 1 := by omega
    have hb2 : ¬ target_count ≤ points.length := by omega
    rw [interpolate_points, if_neg hb1, if_neg hb2]
    set segments := points.length - 1 with hsegdef
    have hseg1 : 1 ≤ segments := by omega
    have hsegpos : (0 : ℚ) < (segments : ℚ) := by exact_mod_cast hseg1
    set T : ℚ := (target_count : ℚ) - points.length with hT
    have htnpos : (0 : ℚ) < T := by
      rw [hT]
      have : (points.length : ℚ) < target_count := by exact_mod_cast hlt
      linarith
    set x : ℚ := T / segments with hxdef
    have hx : 0 < x := by
      rw [hxdef]
      exact div_pos htnpos hsegpos
    set pps : ℚ := fl64 x with hpps
    have hppsnn : 0 ≤ pps := fl64_nonneg hx.le
    set f : ℕ → ℤ := fun i : ℕ => truncInt (fl64 (pps * i)) with hfdef
    have hfmono : Monotone f := by
      intro a b hab
      have ha : (0 : ℚ) ≤ pps * a := by positivity
      have hmul : pps * (a : ℚ) ≤ pps * b :=
        mul_le_mul_of_nonneg_left (by exact_mod_cast hab) hppsnn
      have hfle := fl64_mono ha hmul
      simp only [hfdef]
      rw [truncInt_eq_floor _ (fl64_nonneg ha),
        truncInt_eq_floor _ (fl64_nonneg (le_trans ha hmul))]
      exact Int.floor_le_floor hfle
    set P : ℚ := fl64 (pps * (segments : ℚ)) with hPdef
    have hxseg : x * segments = T := by
      rw [hxdef]
      exact div_mul_cancel₀ T hsegpos.ne'
    have hbx := fl64_bounds x hx
    have hppos : 0 < pps := by
      have hxu : x / 2 ^ 53 < x := by
        rw [div_lt_iff₀ (by norm_num : (0 : ℚ) < 2 ^ 53)]
        nlinarith
      rw [hpps]
      linarith [hbx.1]
    have hprodpos : 0 < pps * (segments : ℚ) := mul_pos hppos hsegpos
    have hbP := fl64_bounds (pps * segments) hprodpos
    have hT1 : (1 : ℚ) ≤ T := by
      rw [hT]
      have h3 : ((points.length + 1 : ℕ) : ℚ) ≤ target_count := by exact_mod_cast hlt
      push_cast at h3
      linarith
    have hT50 : T ≤ 2 ^ 50 := by
      rw [hT]
      have h1 : (target_count : ℚ) ≤ ((2 ^ 50 : ℕ) : ℚ) := by exact_mod_cast hbound
      have h4 : (0 : ℚ) ≤ points.length := by positivity
      push_cast at h1
      linarith
    have hup : P < T + 1 := by
      have hc1 : pps * segments ≤ T * (1 + 1 / 2 ^ 53) := by
        have hm := mul_le_mul_of_nonneg_right hbx.2 hsegpos.le
        calc pps * (segments : ℚ) ≤ (x + x / 2 ^ 53) * segments := hm
          _ = (x * segments) * (1 + 1 / 2 ^ 53) := by ring
          _ = T * (1 + 1 / 2 ^ 53) := by rw [hxseg]
      have hc2 : P ≤ (pps * segments) * (1 + 1 / 2 ^ 53) := by
        have hr : pps * (segments : ℚ) + (pps * segments) / 2 ^ 53
            = (pps * segments) * (1 + 1 / 2 ^ 53) := by ring
        rw [hPdef]
        linarith [hbP.2]
      have hc3 : P ≤ T * (1 + 1 / 2 ^ 53) * (1 + 1 / 2 ^ 53) :=
        le_trans hc2 (mul_le_mul_of_nonneg_right hc1 (by norm_num))
      have hc4 : T * (1 + 1 / 2 ^ 53) * (1 + 1 / 2 ^ 53)
          = T + T * (2 / 2 ^ 53 + 1 / 2 ^ 106) := by ring
      have hc5 : T * (2 / 2 ^ 53 + 1 / 2 ^ 106)
          ≤ (2 ^ 50 : ℚ) * (2 / 2 ^ 53 + 1 / 2 ^ 106) :=
        mul_le_mul_of_nonneg_right hT50 (by norm_num)
      have hc6 : (2 ^ 50 : ℚ) * (2 / 2 ^ 53 + 1 / 2 ^ 106) < 1 := by norm_num
      linarith
    have hlo : T - 1 < P := by
      have hc1 : T * (1 - 1 / 2 ^ 53) ≤ pps * segments := by
        have hm := mul_le_mul_of_nonneg_right hbx.1 hsegpos.le
        calc T * (1 - 1 / 2 ^ 53) = (x * segments) * (1 - 1 / 2 ^ 53) := by rw [hxseg]
          _ = (x - x / 2 ^ 53) * segments := by ring
          _ ≤ pps * segments := hm
      have hc2 : (pps * segments) * (1 - 1 / 2 ^ 53) ≤ P := by
        have hr : pps * (segments : ℚ) - (pps * segments) / 2 ^ 53
            = (pps * segments) * (1 - 1 / 2 ^ 53) := by ring
        rw [hPdef]
        linarith [hbP.1]
      have hc3 : T * (1 - 1 / 2 ^ 53) * (1 - 1 / 2 ^ 53) ≤ P :=
        le_trans (mul_le_mul_of_nonneg_right hc1 (by norm_num)) hc2
      have hc4 : T * (1 - 1 / 2 ^ 53) * (1 - 1 / 2 ^ 53)
          = T - T * (2 / 2 ^ 53 - 1 / 2 ^ 106) := by ring
      have hc5 : T * (2 / 2 ^ 53 - 1 / 2 ^ 106)
          ≤ (2 ^ 50 : ℚ) * (2 / 2 ^ 53 - 1 / 2 ^ 106) :=
        mul_le_mul_of_nonneg_right hT50 (by norm_num)
      have hc6 : (2 ^ 50 : ℚ) * (2 / 2 ^ 53 - 1 / 2 ^ 106) < 1 := by norm_num
      linarith
    have hPnn : 0 ≤ P := by
      rw [hPdef]
      exact fl64_nonneg hprodpos.le
    have hub : truncInt P ≤ (target_count : ℤ) - points.length := by
      rw [hPdef] at hup ⊢
      rw [truncInt_eq_floor _ (by rw [hPdef] at hPnn; exact hPnn)]
      have h1 : ⌊fl64 (pps * (segments : ℚ))⌋
          < (target_count : ℤ) - points.length + 1 := by
        apply Int.floor_lt.mpr
        push_cast
        rw [hT] at hup
        linarith
      omega
    have hlb : (target_count : ℤ) - points.length - 1 ≤ truncInt P := by
      rw [hPdef] at hlo ⊢
      rw [truncInt_eq_floor _ (by rw [hPdef] at hPnn; exact hPnn)]
      apply Int.le_floor.mpr
      push_cast
      rw [hT] at hlo
      linarith
    have hLlen : (points.getD 0 default
        :: ((List.range segments).flatMap (interp_chunk points pps segments)
            ++ [points.getLast?.getD default])).length
        = points.length + (truncInt P).toNat := by
      simp only [List.length_cons, List.length_append, List.length_flatMap,
        List.length_singleton, List.length_nil, List.map_map]
      have hchunk : ((List.range segments).map
            (List.length ∘ interp_chunk points pps segments)).sum
          = ((List.range segments).map fun i : ℕ => (f (i + 1) - f i).toNat).sum
            + ((List.range segments).map fun i : ℕ =>
                if i < segments - 1 then 1 else 0).sum := by
        rw [← List.sum_map_add]
        apply congrArg
        apply List.map_congr_left
        intro i _
        have hc := interp_chunk_length points pps segments i
        simp only [Function.comp_apply, hc, hfdef, Nat.cast_add, Nat.cast_one]
      rw [hchunk, telescope_toNat_sum f hfmono, sum_tail_indicator]
      have hf0 : f 0 = 0 := by
        simp [hfdef, fl64_zero, truncInt]
      rw [hf0]
      simp only [hfdef, hPdef]
      omega
    refine ⟨?_, ?_, ?_, ?_⟩
    · cases points with
      | nil => exact absurd rfl hne
      | cons a l => simp
    · have hsome : points.getLast?.isSome := by
        rw [List.getLast?_isSome]
        exact hne
      obtain ⟨xx, hxx⟩ := Option.isSome_iff_exists.mp hsome
      rw [← List.cons_append, List.getLast?_concat, hxx]
      rfl
    · rw [hLlen]
      omega
    · rw [hLlen]
      omega
  · intro hid
    rw [interpolate_points]
    split_ifs with g1 g2
    · rfl
    · rfl
    · exfalso
      omega

/-- Witness for C7 amended: two points resampled to four, with both
endpoints preserved and the length within the guaranteed window. -/
theorem interpolate_points_amended_witness :
    (interpolate_points [⟨0, 0⟩, ⟨3, 3⟩] 4).head? = some ⟨0, 0⟩ ∧
    (interpolate_points [⟨0, 0⟩, ⟨3, 3⟩] 4).getLast? = some ⟨3, 3⟩ ∧
    3 ≤ (interpolate_points [⟨0, 0⟩, ⟨3, 3⟩] 4).length ∧
    (interpolate_points [⟨0, 0⟩, ⟨3, 3⟩] 4).length ≤ 4 := by
  have h := (interpolate_points_amended [⟨0, 0⟩, ⟨3, 3⟩] 4 (by norm_num)).1
    (by norm_num) (by norm_num)
  exact ⟨h.1.trans rfl, h.2.1.trans rfl, h.2.2.1, h.2.2.2⟩

set_option maxRecDepth 8000 in
/-- **C7 counterexample.**  45 route points resampled towards a target of
60 yield only 59 points: `points_per_segment = 15/44` rounds up in
binary64, `fl(fl(15/44) ⊗ 44)` falls just below 15, and the truncating
per-segment allocation telescopes to 14 instead of 15 — so the claim that
the output always has exactly `target_count` points fails (the source
itself logs a count-mismatch warning at this point). -/
theorem interpolate_points_target_shortfall :
    (interpolate_points ((List.range 45).map fun i : ℕ =>
        ⟨(i : ℚ), (i : ℚ)⟩) 60).length = 59 ∧ (59 : ℕ) ≠ 60 := by
  constructor
  · with_unfolding_all decide
  · decide

/-! ## Power log generation
(`log_generators/power_log_generator.py`, `generate_power_log`) -/

/-- Random draws consumed by one `generate_power_log` call:
`random.random() < 0.95` (GPS normal), `random.randint(0, 100)` (power-off
speed), `random.randint(0, 365)` (heading). -/
structure PowerDraws where
  gps_normal : Bool
  spd_draw : ℕ
  ang_draw : ℕ
  deriving Repr, DecidableEq

/-- The power-on position/fix-status selection of `generate_power_log`:
the last power-off position of the device if one was recorded (fix `A` with
probability 0.95, else `P`), otherwise — 최초 시동 ON — the current
coordinates with fix status `V`. -/
def power_on_position (m : EmulatorManager) (mdn : String) (d : PowerDraws) :
    ℚ × ℚ × String :=
  match m.last_positions mdn with
  | some lp => (lp.1, lp.2, if d.gps_normal then "A" else "P")
  | none => (m.last_latitude, m.last_longitude, "V")

/-- `PowerLogGenerator.generate_power_log(mdn, power_on)`.  `None` when the
emulator is inactive (`get_emulator`).  The source branches on `power_on`
three times over a shared prelude; the two outcomes are written as two
branches here.  `emulator["is_active"] = power_on` mutates only the cached
dict view and is a no-op on the manager state.  `fallback_on_time` stands
for `(datetime.now() - timedelta(hours=1)).strftime(...)`, used only when
no power-on time was ever recorded.  On power-off the current position is
cached in `last_positions` and the odometer re-written through
`update_accumulated_distance(int(...))`. -/
def generate_power_log (m : EmulatorManager) (mdn : String) (power_on : Bool)
    (time_str fallback_on_time : String) (draws : PowerDraws) :
    Option PowerLogRequest × EmulatorManager :=
  if ¬ is_emulator_active m (some mdn) then (none, m)
  else
    -- 누적 주행 거리: sum_val = str(int(total_distance))
    let sum_val := toString (truncInt (get_accumulated_distance m (some mdn)))
    -- 방향각: ang = str(random.randint(0, 365))
    let ang := toString draws.ang_draw
    if power_on then
      let pos := power_on_position m mdn draws
      (some { mdn := mdn, tid := "A001", mid := "6", pv := "5", did := "1",
              onTime := time_str, offTime := "", gcd := pos.2.2,
              lat := toString (truncInt (round6 pos.1 * 1000000)),
              lon := toString (truncInt (round6 pos.2.1 * 1000000)),
              ang := ang, spd := "0", sum := sum_val },
       -- 시동 ON 시간 저장: last_power_on_time = time_str
       { m with last_power_on_time := time_str })
    else
      let gps_status := if draws.gps_normal then "A" else "P"
      -- 직전 시동 ON 시간, 없으면(빈 문자열이면) 1시간 전 임의 값
      let on_time :=
        if m.last_power_on_time ≠ "" then m.last_power_on_time else fallback_on_time
      let m1 := { m with last_positions := fun k =>
        if k = m.mdn then some (m.last_latitude, m.last_longitude)
        else m.last_positions k }
      let m2 := (update_accumulated_distance m1
        (truncInt (get_accumulated_distance m1 (some mdn))) (some mdn)).2
      (some { mdn := mdn, tid := "A001", mid := "6", pv := "5", did := "1",
              onTime := on_time, offTime := time_str, gcd := gps_status,
              lat := toString (truncInt (round6 m.last_latitude * 1000000)),
              lon := toString (truncInt (round6 m.last_longitude * 1000000)),
              ang := ang, spd := toString draws.spd_draw, sum := sum_val },
       m2)

lemma is_emulator_active_self (m : EmulatorManager) :
    is_emulator_active m (some m.mdn) = m.is_active := by
  simp [is_emulator_active]

lemma generate_power_log_on_fields (m : EmulatorManager) (t fb : String)
    (d : PowerDraws) (h : m.is_active = true) :
    (generate_power_log m m.mdn true t fb d).1.map PowerLogRequest.onTime = some t
    ∧ (generate_power_log m m.mdn true t fb d).2
        = { m with last_power_on_time := t } := by
  simp only [generate_power_log]
  rw [is_emulator_active_self, h]
  simp

lemma generate_power_log_off_onTime (m : EmulatorManager) (t fb : String)
    (d : PowerDraws) (h : m.is_active = true)
    (hpt : m.last_power_on_time ≠ "") :
    (generate_power_log m m.mdn false t fb d).1.map PowerLogRequest.onTime
      = some m.last_power_on_time := by
  simp only [generate_power_log]
  rw [is_emulator_active_self, h]
  simp [hpt]

/-- **C9.** A power-off record generated after a power-on record for the
same device echoes the power-on record's `onTime` character for character
(the generator stores the most recent power-on time in
`last_power_on_time` and reads it back on power-off). -/
theorem power_off_echoes_power_on (m : EmulatorManager)
    (t1 t2 fb1 fb2 : String) (d1 d2 : PowerDraws)
    (hactive : m.is_active = true) (ht1 : t1 ≠ "") :
    ∃ p1 p2 : PowerLogRequest,
      (generate_power_log m m.mdn true t1 fb1 d1).1 = some p1 ∧
      (generate_power_log (generate_power_log m m.mdn true t1 fb1 d1).2
          m.mdn false t2 fb2 d2).1 = some p2 ∧
      p2.onTime = p1.onTime ∧ p1.onTime = t1 := by
  have hon := generate_power_log_on_fields m t1 fb1 d1 hactive
  obtain ⟨p1, hp1, hp1t⟩ := Option.map_eq_some'.mp hon.1
  have hoff := generate_power_log_off_onTime
    ({ m with last_power_on_time := t1 }) t2 fb2 d2 hactive ht1
  obtain ⟨p2, hp2, hp2t⟩ := Option.map_eq_some'.mp hoff
  refine ⟨p1, p2, hp1, ?_, ?_, hp1t⟩
  · rw [hon.2]
    exact hp2
  · rw [hp2t, hp1t]

/-- A concrete emulator state used by witnesses: active, fresh odometer. -/
def sampleManager : EmulatorManager :=
  { mdn := "01012345678", terminal_id := "TERM-5678", manufacture_id := 6,
    packet_version := 5, device_id := 1, device_firmware_version := "1.0.0",
    last_latitude := 375665/10000, last_longitude := 126978/1000,
    is_active := true, accumulated_distance := 0,
    mdn_accumulated_distances := fun _ => none,
    last_position := (375665/10000, 126978/1000),
    last_positions := fun _ => none, last_power_on_time := "",
    kakao_route_points := [], current_route_index := 0,
    collecting_data := [], has_data_callback := false }

/-- Witness for C9 at a concrete active manager. -/
theorem power_off_echoes_power_on_witness :
    ∃ p1 p2 : PowerLogRequest,
      (generate_power_log sampleManager sampleManager.mdn true
          "20250101120000" "f1" ⟨true, 0, 0⟩).1 = some p1 ∧
      (generate_power_log
          (generate_power_log sampleManager sampleManager.mdn true
            "20250101120000" "f1" ⟨true, 0, 0⟩).2
          sampleManager.mdn false "20250101130000" "f2" ⟨false, 50, 100⟩).1 = some p2 ∧
      p2.onTime = p1.onTime ∧ p1.onTime = "20250101120000" :=
  power_off_echoes_power_on sampleManager "20250101120000" "20250101130000"
    "f1" "f2" ⟨true, 0, 0⟩ ⟨false, 50, 100⟩ rfl (by decide)

/-! ## Start flow (`services/data_generator.py`, `services/emulator_manager.py`) -/

/-- `EmulatorDataGenerator.start_vehicle`: refuse when the emulator is not
active, re-assert the active flag, then generate and store a power-on log
(`store_power_log` delegates to the power handler's `store_log`); its
outcome does not affect the returned success. -/
def start_vehicle (m : EmulatorManager) (ph : LogHandler PowerLogRequest)
    (send : PowerLogRequest → Bool) (now : ℤ)
    (time_str fallback_on_time : String) (draws : PowerDraws) (mdn : String) :
    Bool × EmulatorManager × LogHandler PowerLogRequest :=
  if ¬ is_emulator_active m (some mdn) then (false, m, ph)
  else
    let m := { m with is_active := true }
    let r := generate_power_log m mdn true time_str fallback_on_time draws
    match r.1 with
    | some power_log => (true, r.2, (store_log ph send now mdn power_log).2)
    | none => (true, r.2, ph)

lemma set_terminal_id_fields (m : EmulatorManager) (t : Option String) :
    (set_terminal_id m t).mdn = m.mdn ∧
    (set_terminal_id m t).mdn_accumulated_distances = m.mdn_accumulated_distances := by
  rcases t with _ | v
  · exact ⟨rfl, rfl⟩
  · by_cases h : v ≠ "" <;> simp [set_terminal_id, h]

lemma set_manufacture_id_fields (m : EmulatorManager) (t : Option ℤ) :
    (set_manufacture_id m t).mdn = m.mdn ∧
    (set_manufacture_id m t).mdn_accumulated_distances = m.mdn_accumulated_distances := by
  rcases t with _ | v
  · exact ⟨rfl, rfl⟩
  · by_cases h : v ≠ 0 <;> simp [set_manufacture_id, h]

lemma set_packet_version_fields (m : EmulatorManager) (t : Option ℤ) :
    (set_packet_version m t).mdn = m.mdn ∧
    (set_packet_version m t).mdn_accumulated_distances = m.mdn_accumulated_distances := by
  rcases t with _ | v
  · exact ⟨rfl, rfl⟩
  · by_cases h : v ≠ 0 <;> simp [set_packet_version, h]

lemma set_device_id_fields (m : EmulatorManager) (t : Option ℤ) :
    (set_device_id m t).mdn = m.mdn ∧
    (set_device_id m t).mdn_accumulated_distances = m.mdn_accumulated_distances := by
  rcases t with _ | v
  · exact ⟨rfl, rfl⟩
  · by_cases h : v ≠ 0 <;> simp [set_device_id, h]

lemma set_firmware_fields (m : EmulatorManager) (t : Option String) :
    (set_firmware m t).mdn = m.mdn ∧
    (set_firmware m t).mdn_accumulated_distances = m.mdn_accumulated_distances := by
  rcases t with _ | v
  · exact ⟨rfl, rfl⟩
  · by_cases h : v ≠ "" <;> simp [set_firmware, h]

lemma apply_start_args_fields (m : EmulatorManager) (tid : Option String)
    (mid pv did : Option ℤ) (fwo : Option String) :
    (apply_start_args m tid mid pv did fwo).mdn = m.mdn ∧
    (apply_start_args m tid mid pv did fwo).mdn_accumulated_distances
      = m.mdn_accumulated_distances := by
  rw [apply_start_args]
  obtain ⟨a1, a2⟩ := set_terminal_id_fields m tid
  obtain ⟨b1, b2⟩ := set_manufacture_id_fields (set_terminal_id m tid) mid
  obtain ⟨c1, c2⟩ := set_packet_version_fields
    (set_manufacture_id (set_terminal_id m tid) mid) pv
  obtain ⟨d1, d2⟩ := set_device_id_fields
    (set_packet_version (set_manufacture_id (set_terminal_id m tid) mid) pv) did
  obtain ⟨e1, e2⟩ := set_firmware_fields
    (set_device_id (set_packet_version (set_manufacture_id
      (set_terminal_id m tid) mid) pv) did) fwo
  constructor
  · rw [e1, d1, c1, b1, a1]
  · rw [e2, d2, c2, b2, a2]

lemma start_emulator_state (m : EmulatorManager) (la lo : ℚ)
    (tid : Option String) (mid pv did : Option ℤ) (fwo : Option String) :
    (m.start_emulator la lo tid mid pv did fwo).1 = true ∧
    (m.start_emulator la lo tid mid pv did fwo).2.mdn = m.mdn ∧
    (m.start_emulator la lo tid mid pv did fwo).2.is_active = true ∧
    (m.start_emulator la lo tid mid pv did fwo).2.accumulated_distance
      = (m.mdn_accumulated_distances m.mdn).getD 0 := by
  obtain ⟨h1, h2⟩ := apply_start_args_fields
    { m with last_latitude := la, last_longitude := lo } tid mid pv did fwo
  simp only [EmulatorManager.start_emulator]
  set A := apply_start_args { m with last_latitude := la, last_longitude := lo }
    tid mid pv did fwo with hA
  have hm1 : A.mdn = m.mdn := by simpa using h1
  have hm2 : A.mdn_accumulated_distances = m.mdn_accumulated_distances := by
    simpa using h2
  by_cases hn : ((A.mdn_accumulated_distances A.mdn).isNone : Prop)
  · have hnone : m.mdn_accumulated_distances m.mdn = none := by
      rw [← hm2, ← hm1]
      exact Option.isNone_iff_eq_none.mp hn
    simp [hm1, hm2, hnone]
  · have hsome : ¬ m.mdn_accumulated_distances m.mdn = none := by
      rw [← hm2, ← hm1]
      exact fun h => hn (Option.isNone_iff_eq_none.mpr h)
    simp [hm1, hm2, hsome]

/-- `EmulatorDataGenerator.start_emulator(mdn, ...)`: set the manager's MDN,
call `EmulatorManager.start_emulator` (which always reports success), then
`start_vehicle` (whose outcome is ignored), and report success. -/
def EmulatorDataGenerator.start_emulator (m : EmulatorManager)
    (ph : LogHandler PowerLogRequest) (send : PowerLogRequest → Bool) (now : ℤ)
    (mdn terminal_id : String) (manufacture_id packet_version device_id : ℤ)
    (device_firmware_version : String) (seed_latitude seed_longitude : ℚ)
    (time_str fallback_on_time : String) (draws : PowerDraws) :
    Bool × EmulatorManager × LogHandler PowerLogRequest :=
  let m := { m with mdn := mdn }
  let r := m.start_emulator seed_latitude seed_longitude (some terminal_id)
    (some manufacture_id) (some packet_version) (some device_id)
    (some device_firmware_version)
  if ¬ r.1 then (false, r.2, ph)
  else
    let sv := start_vehicle r.2 ph send now time_str fallback_on_time draws mdn
    (true, sv.2.1, sv.2.2)

lemma start_vehicle_acc (m : EmulatorManager) (ph : LogHandler PowerLogRequest)
    (send : PowerLogRequest → Bool) (now : ℤ) (ts fb : String) (dr : PowerDraws)
    (mdn : String) (hm : mdn = m.mdn) (hact : m.is_active = true) :
    (start_vehicle m ph send now ts fb dr mdn).2.1.accumulated_distance
      = m.accumulated_distance := by
  subst hm
  simp only [start_vehicle]
  rw [is_emulator_active_self, hact]
  have hgen := generate_power_log_on_fields ({ m with is_active := true }) ts fb dr rfl
  obtain ⟨p, hp, -⟩ := Option.map_eq_some'.mp hgen.1
  have hp' : (generate_power_log { m with is_active := true } m.mdn true ts fb dr).1
      = some p := hp
  have hstate : (generate_power_log { m with is_active := true } m.mdn true ts fb dr).2
      = { m with is_active := true, last_power_on_time := ts } := hgen.2
  simp [hp', hstate]

/-- **C5 (amended).** `EmulatorManager.start_emulator` and the
`EmulatorDataGenerator.start_emulator` wrapper always report success — there
is no double-start rejection: a second start while the device is active
still returns `True`.  The odometer handling does match the claim: the
odometer is (re)set to 0 only when this MDN has never run before
(no persisted entry in `mdn_accumulated_distances`), otherwise the
persisted value is resumed. -/
theorem start_emulator_always_succeeds_resumes_odometer
    (m : EmulatorManager) (la lo : ℚ) (tid : Option String) (mid pv did : Option ℤ)
    (fwo : Option String) (ph : LogHandler PowerLogRequest)
    (send : PowerLogRequest → Bool) (now : ℤ) (mdn tids : String)
    (mids pvs dids : ℤ) (fw : String) (ts fb : String) (dr : PowerDraws) :
    (m.start_emulator la lo tid mid pv did fwo).1 = true ∧
    (m.start_emulator la lo tid mid pv did fwo).2.accumulated_distance
      = (m.mdn_accumulated_distances m.mdn).getD 0 ∧
    (EmulatorDataGenerator.start_emulator m ph send now mdn tids mids pvs dids fw
        la lo ts fb dr).1 = true ∧
    (EmulatorDataGenerator.start_emulator m ph send now mdn tids mids pvs dids fw
        la lo ts fb dr).2.1.accumulated_distance
      = (m.mdn_accumulated_distances mdn).getD 0 := by
  have hs := start_emulator_state m la lo tid mid pv did fwo
  have hs' := start_emulator_state { m with mdn := mdn } la lo (some tids)
    (some mids) (some pvs) (some dids) (some fw)
  refine ⟨hs.1, hs.2.2.2, ?_, ?_⟩
  · simp only [EmulatorDataGenerator.start_emulator]
    rw [hs'.1]
    simp
  · simp only [EmulatorDataGenerator.start_emulator]
    rw [hs'.1]
    simp only [not_true, ite_false, Bool.not_true]
    have hmdn : mdn = (({ m with mdn := mdn } : EmulatorManager).start_emulator la lo
        (some tids) (some mids) (some pvs) (some dids) (some fw)).2.mdn := hs'.2.1.symm
    rw [start_vehicle_acc _ ph send now ts fb dr mdn hmdn hs'.2.2.1]
    exact hs'.2.2.2

/-- **C5 counterexample.** A start issued while the device state exists and
is active (double-start) still returns success, where the claim demands
failure. -/
theorem start_emulator_double_start_returns_success :
    sampleManager.is_active = true ∧
    (EmulatorDataGenerator.start_emulator sampleManager (mkPowerLogHandler 24)
        (fun _ => true) 0 "01012345678" "A001" 6 5 1 "1.0.0"
        (375665/10000) (126978/1000) "20250101120000" "fb" ⟨true, 0, 0⟩).1 = true :=
  ⟨rfl, rfl⟩

/-! ## Batch encoding of collected samples
(`log_generators/gps_log_generator.py`, `create_gps_log_from_collected_data`) -/

/-- `int(round(x, 6) * 1000000)`: the coordinate scaling shared by the
batch encoder and the power log generator. -/
def scale_coord (q : ℚ) : ℤ :=
  truncInt (round6 q * 1000000)

/-- The `i > 0` body of the encoding loop: distance, smoothed speed,
smoothed heading, and the 80 m-guarded odometer accumulation for one
consecutive pair of samples.  Returns `(angle, speed, new_total)`. -/
def encode_step (distf bearingf : ℚ → ℚ → ℚ → ℚ → ℚ)
    (prev : Option CollectedPoint) (total : ℚ) (data : CollectedPoint) :
    ℚ × ℚ × ℚ :=
  match prev with
  | none => (data.angle, data.speed, total)
  | some prev_data =>
    let distance := distf prev_data.latitude prev_data.longitude
      data.latitude data.longitude
    let td := data.timestamp.total_seconds - prev_data.timestamp.total_seconds
    let time_diff := if td ≤ 0 then 1 else td
    let speed :=
      if 0 < distance ∧ 0 < time_diff then
        -- 스무딩: prev*0.7 + ((d/t)*3.6)*0.3
        prev_data.speed * (7/10) + (distance / time_diff * (36/10)) * (3/10)
      else
        prev_data.speed * (9/10)
    let speed := max 0 (min 120 speed)
    let angle :=
      if 0 < distance then
        smooth_angle prev_data.angle
          (bearingf prev_data.latitude prev_data.longitude
            data.latitude data.longitude)
      else prev_data.angle
    -- 80m 이상 이동은 비정상으로 간주하고 누적 제외
    let total := if distance ≤ 80 then total + distance else total
    (angle, speed, total)

/-- The encoding loop of `create_gps_log_from_collected_data`: one
`GpsLogItem` per collected sample (every position is accepted into the
batch), threading the previous sample and the running odometer total. -/
def encode_points (distf bearingf : ℚ → ℚ → ℚ → ℚ → ℚ)
    (prev : Option CollectedPoint) (total : ℚ) :
    List CollectedPoint → List GpsLogItem × ℚ
  | [] => ([], total)
  | data :: rest =>
    let st := encode_step distf bearingf prev total data
    let item : GpsLogItem :=
      { sec := toString data.timestamp.second, gcd := "A",
        lat := toString (scale_coord data.latitude),
        lon := toString (scale_coord data.longitude),
        ang := toString (truncInt st.1), spd := toString (truncInt st.2.1),
        sum := toString (truncInt st.2.2),
        bat := toString (truncInt data.battery) }
    let r := encode_points distf bearingf (some data) st.2.2 rest
    (item :: r.1, r.2)

/-- `GpsLogGenerator.create_gps_log_from_collected_data` (the
`log_generators` variant used by the live pipeline): refuse an empty MDN or
batch or an inactive emulator, encode every sample, and write the truncated
final odometer total back through `update_accumulated_distance`. -/
def create_gps_log_from_collected_data (distf bearingf : ℚ → ℚ → ℚ → ℚ → ℚ)
    (m : EmulatorManager) (mdn : String) (collected_data : List CollectedPoint)
    (time_str : String) : Option GpsLogRequest × EmulatorManager :=
  if mdn = "" ∨ collected_data = [] then (none, m)
  else if ¬ is_emulator_active m (some mdn) then (none, m)
  else
    let total_distance := get_accumulated_distance m (some mdn)
    let r := encode_points distf bearingf none total_distance collected_data
    let m2 := (update_accumulated_distance m (truncInt r.2) (some mdn)).2
    (some { mdn := mdn, tid := "A001", mid := "6", pv := "5", did := "1",
            oTime := time_str, cCnt := toString r.1.length, cList := r.1 },
     m2)

/-! ## Synthetic per-second GPS batch
(`services/gps_log_generator.py`, `generate_gps_log`) -/

/-- `str(x)` for a float position value.  No claim inspects the digit
string of a nonzero coordinate, so the rendering of the exact rational
stands in for Python's float repr. -/
def pyFloatStr (q : ℚ) : String :=
  toString q

/-- Random draws consumed by one second of the synthetic batch: the
candidate movement offsets `random.uniform(-0.0001, 0.0001)` tried by the
attempts loop, the heading draw `randint(0, 365)`, the speed draw
`randint(0, 255)` and the battery voltage draw `uniform(11.5, 14.5)`. -/
structure GpsSecondDraws where
  moves : List (ℚ × ℚ)
  ang_draw : ℕ
  spd_draw : ℕ
  battery : ℚ
  deriving Repr, DecidableEq

/-- The `while not valid_movement and attempts < 5` loop: try candidate
offsets from the last valid position until one moves at most 80 m; when
every attempt fails, the last drawn (rejected) position is kept in
`lat_adj`/`lon_adj` with `valid_movement = False`.  Returns
`(lat_adj, lon_adj, accepted_distance, valid_movement)`; the caller passes
at most 5 candidates (`attempts < 5`). -/
def movement_attempts (distf : ℚ → ℚ → ℚ → ℚ → ℚ) (la lo : ℚ) :
    List (ℚ × ℚ) → ℚ × ℚ × ℚ × Bool
  | [] => (la, lo, 0, false)
  | mv :: rest =>
    let lat_adj := la + mv.1
    let lon_adj := lo + mv.2
    let distance := distf la lo lat_adj lon_adj
    if distance ≤ 80 then (lat_adj, lon_adj, distance, true)
    else if rest.isEmpty then (lat_adj, lon_adj, distance, false)
    else movement_attempts distf la lo rest

/-- One second of the valid-fix branch: run the attempts loop; on a valid
movement accept the new position as the last valid one and accumulate its
distance, otherwise keep the last valid position and the accumulated total.
Returns `(lat_adj, lon_adj, last_valid_lat, last_valid_lon, accumulated)`. -/
def gps_second_step (distf : ℚ → ℚ → ℚ → ℚ → ℚ)
    (la lo accumulated : ℚ) (moves : List (ℚ × ℚ)) : ℚ × ℚ × ℚ × ℚ × ℚ :=
  let r := movement_attempts distf la lo (moves.take 5)
  if r.2.2.2 then (r.1, r.2.1, r.1, r.2.1, accumulated + r.2.2.1)
  else (r.1, r.2.1, la, lo, accumulated)

/-- The `sum` field of a valid-fix entry:
`total = get_accumulated_distance(mdn) + int(accumulated)`, clamped at
9,999,999, then `str(int(total))`. -/
def gps_sum_field (m : EmulatorManager) (mdn : String) (accumulated : ℚ) :
    String :=
  let total := get_accumulated_distance m (some mdn)
    + ((truncInt accumulated : ℤ) : ℚ)
  let total := if total > 9999999 then (9999999 : ℚ) else total
  toString (truncInt total)

/-- The per-second item loop of `generate_gps_log`: fix status `"0"` emits
the zeroed entry (with the odometer, not `"0"`, in `sum`); any other status
runs the movement simulation.  Returns the items and the final
`(last_valid_lat, last_valid_lon, accumulated)`. -/
def gps_items (distf : ℚ → ℚ → ℚ → ℚ → ℚ) (m : EmulatorManager)
    (mdn status : String) : ℕ → ℚ → ℚ → ℚ → List GpsSecondDraws →
    List GpsLogItem × ℚ × ℚ × ℚ
  | _, la, lo, accumulated, [] => ([], la, lo, accumulated)
  | i, la, lo, accumulated, d :: rest =>
    if status = "0" then
      let item : GpsLogItem :=
        { sec := toString i, gcd := status, lat := "0", lon := "0",
          ang := "0", spd := "0",
          sum := toString (truncInt (get_accumulated_distance m (some mdn))),
          bat := toString (truncInt (d.battery * 10)) }
      let r := gps_items distf m mdn status (i + 1) la lo accumulated rest
      (item :: r.1, r.2)
    else
      let st := gps_second_step distf la lo accumulated d.moves
      let item : GpsLogItem :=
        { sec := toString i, gcd := status,
          lat := pyFloatStr st.1, lon := pyFloatStr st.2.1,
          ang := toString d.ang_draw,
          spd := toString (if m.is_active then d.spd_draw else 0),
          sum := gps_sum_field m mdn st.2.2.2.2,
          bat := toString (truncInt (d.battery * 10)) }
      let r := gps_items distf m mdn status (i + 1) st.2.2.1 st.2.2.2.1
        st.2.2.2.2 rest
      (item :: r.1, r.2)

/-- `GpsLogGenerator.generate_gps_log` (the `services` variant): `None`
when inactive; otherwise 60 (or 1) per-second entries from the current
position, then — for a valid fix — the emulator position/odometer update
with the batch's accepted distance. -/
def generate_gps_log (distf : ℚ → ℚ → ℚ → ℚ → ℚ) (m : EmulatorManager)
    (mdn status : String) (draws : List GpsSecondDraws) (time_str : String) :
    Option GpsLogRequest × EmulatorManager :=
  if ¬ is_emulator_active m (some mdn) then (none, m)
  else
    let r := gps_items distf m mdn status 0 m.last_latitude m.last_longitude
      0 draws
    let m2 :=
      if r.1 ≠ [] ∧ status ≠ "0" then
        update_emulator_position m r.2.1 r.2.2.1 r.2.2.2
      else m
    (some { mdn := mdn, tid := "A001", mid := "6", pv := "5", did := "1",
            oTime := time_str, cCnt := toString r.1.length, cList := r.1 },
     m2)

/-! ## Worker-side batch assembly
(`log_handlers/gps_log_handler.py`, `batch_gps_data_points`) -/

/-- One data point consumed by `batch_gps_data_points`. -/
structure BatchPoint where
  timestamp_second : ℕ
  gcd : String
  latitude : ℚ
  longitude : ℚ
  heading : ℤ
  speed : ℚ
  accumulated_distance : ℤ
  battery_level : ℤ
  deriving Repr, DecidableEq

/-- `GpsLogHandler.batch_gps_data_points`: `None` on an empty batch;
otherwise one entry per point, with `lat`/`lon` forced to `"0"` when the
point's fix code is `"0"` and the remaining fields taken from the point. -/
def batch_gps_data_points (mdn : String) (data_points : List BatchPoint)
    (terminal_id : String) (manufacture_id packet_version device_id : ℤ)
    (o_time : String) : Option GpsLogRequest :=
  if data_points = [] then none
  else
    some
      { mdn := mdn, tid := terminal_id, mid := toString manufacture_id,
        pv := toString packet_version, did := toString device_id,
        oTime := o_time, cCnt := toString data_points.length,
        cList := data_points.map fun p =>
          { sec := toString p.timestamp_second, gcd := p.gcd,
            lat := if p.gcd = "0" then "0"
              else toString (truncInt (p.latitude * 1000000)),
            lon := if p.gcd = "0" then "0"
              else toString (truncInt (p.longitude * 1000000)),
            ang := toString p.heading,
            spd := toString (truncInt p.speed),
            sum := toString p.accumulated_distance,
            bat := toString p.battery_level } }

lemma truncInt_intCast (n : ℤ) : truncInt (n : ℚ) = n := by
  simp [truncInt]

lemma truncInt_eq_ceil (q : ℚ) (h : q ≤ 0) : truncInt q = ⌈q⌉ := by
  have hnum : q.num ≤ 0 := Rat.num_nonpos.mpr h
  have h1 : (⌈q⌉ : ℤ) = -⌊-q⌋ := rfl
  have h2 : ⌊-q⌋ = (-q).num / ((-q).den : ℤ) := Rat.floor_def
  rw [truncInt, show q.num = -(-q.num) by ring, Int.neg_tdiv,
    Int.tdiv_eq_ediv (by omega) (by positivity), h1, h2]
  norm_num

lemma floor_le_truncInt (q : ℚ) : ⌊q⌋ ≤ truncInt q := by
  rcases le_or_lt 0 q with h | h
  · rw [truncInt_eq_floor q h]
  · rw [truncInt_eq_ceil q h.le]
    exact Int.floor_le_ceil q

lemma le_truncInt_add (n : ℤ) (s : ℚ) (hs : 0 ≤ s) : n ≤ truncInt ((n : ℚ) + s) := by
  have h1 : n ≤ ⌊((n : ℚ) + s)⌋ := by
    have := Int.floor_le_floor
      (α := ℚ) (le_add_of_nonneg_right hs : (n : ℚ) ≤ (n : ℚ) + s)
    simpa using this
  exact le_trans h1 (floor_le_truncInt _)

/-! ## The tick-time position update
(`services/emulator_manager.py`, `update_position`; the route-exhaustion
branch folds in the state effects of the flush, `stop_vehicle` and
`stop_emulator` it performs before `sys.exit(0)`). -/

/-- 남은 데이터 처리: flush the collected samples through the callback. -/
def shutdown_flush (distf bearingf : ℚ → ℚ → ℚ → ℚ → ℚ)
    (m : EmulatorManager) (time_str : String) : EmulatorManager :=
  if m.collecting_data ≠ [] ∧ m.has_data_callback then
    { (create_gps_log_from_collected_data distf bearingf m m.mdn
        m.collecting_data time_str).2 with collecting_data := [] }
  else m

/-- `stop_vehicle` + deactivation + `stop_emulator`: the power-off log
generation's manager effects, then the final position caching. -/
def shutdown_stop (m : EmulatorManager) (time_str fb : String)
    (draws : PowerDraws) : EmulatorManager :=
  let m := (generate_power_log m m.mdn false time_str fb draws).2
  let m := { m with is_active := false }
  { m with last_position := (m.last_latitude, m.last_longitude),
           last_positions := fun k =>
             if k = m.mdn then some (m.last_latitude, m.last_longitude)
             else m.last_positions k }

/-- The route-exhaustion branch of `update_position`: flush any collected
samples through the data callback (`_process_collected_data`, i.e.
`create_gps_log_from_collected_data` + store), generate the power-off log
(`stop_vehicle`), deactivate, and cache the final position
(`stop_emulator`).  Handler-side record stores are modelled separately and
do not touch the manager; the process then exits. -/
def route_exhausted_shutdown (distf bearingf : ℚ → ℚ → ℚ → ℚ → ℚ)
    (m : EmulatorManager) (time_str : String) (draws : PowerDraws)
    (fb : String) : EmulatorManager :=
  shutdown_stop (shutdown_flush distf bearingf m time_str) time_str fb draws

/-- `EmulatorManager.update_position`: a no-op when inactive; resets an
out-of-range latitude to the Seoul origin; with no route data keeps the
position; otherwise moves to the next route point and, when the route is
thereby exhausted (or the cursor was already out of range), runs the
shutdown sequence.  The second component is `true` when the branch ends in
`sys.exit(0)`. -/
def update_position_active (distf bearingf : ℚ → ℚ → ℚ → ℚ → ℚ)
    (m : EmulatorManager) (time_str : String) (draws : PowerDraws)
    (fb : String) : EmulatorManager × Bool :=
  if m.kakao_route_points = [] then
    -- 경로 데이터 없음: 위치 유지
    ({ m with last_positions := fun k =>
        if k = m.mdn then some (m.last_latitude, m.last_longitude)
        else m.last_positions k }, false)
  else
    if m.current_route_index < m.kakao_route_points.length then
      let p := m.kakao_route_points.getD m.current_route_index (0, 0)
      let m1 := { m with last_latitude := p.1, last_longitude := p.2,
                         current_route_index := m.current_route_index + 1 }
      if m1.current_route_index ≥ m.kakao_route_points.length then
        (route_exhausted_shutdown distf bearingf m1 time_str draws fb, true)
      else
        ({ m1 with last_positions := fun k =>
            if k = m1.mdn then some (m1.last_latitude, m1.last_longitude)
            else m1.last_positions k }, false)
    else
      (route_exhausted_shutdown distf bearingf m time_str draws fb, true)

def update_position (distf bearingf : ℚ → ℚ → ℚ → ℚ → ℚ)
    (m : EmulatorManager) (time_str : String) (draws : PowerDraws)
    (fb : String) : EmulatorManager × Bool :=
  if ¬ m.is_active then (m, false)
  else
    update_position_active distf bearingf
      -- 비정상 좌표 감지: 서울 좌표로 초기화
      (if |m.last_latitude| < 1 then
        { m with last_latitude := 375665/10000, last_longitude := 126978/1000 }
      else m) time_str draws fb

lemma encode_step_total_le (distf bearingf : ℚ → ℚ → ℚ → ℚ → ℚ)
    (prev : Option CollectedPoint) (total : ℚ) (data : CollectedPoint)
    (hd : ∀ a b c e, 0 ≤ distf a b c e) :
    total ≤ (encode_step distf bearingf prev total data).2.2 := by
  cases prev with
  | none => simp [encode_step]
  | some pd =>
    simp only [encode_step]
    split_ifs with h
    · have := hd pd.latitude pd.longitude data.latitude data.longitude
      linarith
    · exact le_refl _

lemma encode_step_skip_over80 (distf bearingf : ℚ → ℚ → ℚ → ℚ → ℚ)
    (pd : CollectedPoint) (total : ℚ) (data : CollectedPoint)
    (h : 80 < distf pd.latitude pd.longitude data.latitude data.longitude) :
    (encode_step distf bearingf (some pd) total data).2.2 = total := by
  simp only [encode_step]
  rw [if_neg (not_le.mpr h)]

lemma encode_points_length (distf bearingf : ℚ → ℚ → ℚ → ℚ → ℚ) :
    ∀ (l : List CollectedPoint) (prev : Option CollectedPoint) (total : ℚ),
    (encode_points distf bearingf prev total l).1.length = l.length := by
  intro l
  induction l with
  | nil => intro prev total; simp [encode_points]
  | cons data rest ih => intro prev total; simp [encode_points, ih]

lemma encode_points_total_le (distf bearingf : ℚ → ℚ → ℚ → ℚ → ℚ)
    (hd : ∀ a b c e, 0 ≤ distf a b c e) :
    ∀ (l : List CollectedPoint) (prev : Option CollectedPoint) (total : ℚ),
    total ≤ (encode_points distf bearingf prev total l).2 := by
  intro l
  induction l with
  | nil => intro prev total; simp [encode_points]
  | cons data rest ih =>
    intro prev total
    simp only [encode_points]
    exact le_trans (encode_step_total_le distf bearingf prev total data hd)
      (ih (some data) _)

lemma create_gps_log_acc (distf bearingf : ℚ → ℚ → ℚ → ℚ → ℚ)
    (hd : ∀ a b c e, 0 ≤ distf a b c e) (m : EmulatorManager) (mdn : String)
    (cd : List CollectedPoint) (ts : String) (n : ℤ)
    (hn : m.accumulated_distance = (n : ℚ)) :
    m.accumulated_distance
      ≤ (create_gps_log_from_collected_data distf bearingf m mdn cd ts).2.accumulated_distance
    ∧ ∃ k : ℤ,
      (create_gps_log_from_collected_data distf bearingf m mdn cd ts).2.accumulated_distance
        = (k : ℚ) := by
  by_cases h1 : mdn = "" ∨ cd = []
  · rw [create_gps_log_from_collected_data, if_pos h1]
    exact ⟨le_refl _, n, hn⟩
  · by_cases h2 : is_emulator_active m (some mdn)
    · have hmdn : mdn = m.mdn := by
        by_contra hne
        simp [is_emulator_active, hne] at h2
      subst hmdn
      rw [create_gps_log_from_collected_data, if_neg h1, if_neg (by simpa using h2)]
      have hacc : get_accumulated_distance m (some m.mdn) = m.accumulated_distance := by
        simp [get_accumulated_distance]
      simp only [update_accumulated_distance]
      rw [if_neg (by simp)]
      dsimp only
      constructor
      · have hle : (n : ℚ)
            ≤ (encode_points distf bearingf none
                (get_accumulated_distance m (some m.mdn)) cd).2 := by
          rw [hacc, hn]
          exact encode_points_total_le distf bearingf hd cd none _
        have h4 := le_truncInt_add n
          ((encode_points distf bearingf none
            (get_accumulated_distance m (some m.mdn)) cd).2 - n) (by linarith)
        have h3 : ((n : ℚ)
            + ((encode_points distf bearingf none
                (get_accumulated_distance m (some m.mdn)) cd).2 - n))
            = (encode_points distf bearingf none
                (get_accumulated_distance m (some m.mdn)) cd).2 := by ring
        rw [h3] at h4
        rw [hn]
        exact_mod_cast h4
      · exact ⟨_, rfl⟩
    · rw [create_gps_log_from_collected_data, if_neg h1, if_pos (by simpa using h2)]
      exact ⟨le_refl _, n, hn⟩

lemma generate_power_log_off_acc (m : EmulatorManager) (ts fb : String)
    (d : PowerDraws) :
    (generate_power_log m m.mdn false ts fb d).2.accumulated_distance
      = if m.is_active
        then ((truncInt m.accumulated_distance : ℤ) : ℚ)
        else m.accumulated_distance := by
  by_cases h : m.is_active
  · rw [generate_power_log, is_emulator_active_self]
    simp [h, update_accumulated_distance, get_accumulated_distance]
  · rw [generate_power_log, is_emulator_active_self]
    simp [h]

lemma shutdown_flush_acc (distf bearingf : ℚ → ℚ → ℚ → ℚ → ℚ)
    (hd : ∀ a b c e, 0 ≤ distf a b c e) (m : EmulatorManager) (ts : String)
    (n : ℤ) (hn : m.accumulated_distance = (n : ℚ)) :
    m.accumulated_distance
      ≤ (shutdown_flush distf bearingf m ts).accumulated_distance
    ∧ ∃ k : ℤ,
      (shutdown_flush distf bearingf m ts).accumulated_distance = (k : ℚ) := by
  rw [shutdown_flush]
  split_ifs with h
  · obtain ⟨hle, k, hk⟩ := create_gps_log_acc distf bearingf hd m m.mdn
      m.collecting_data ts n hn
    exact ⟨hle, k, hk⟩
  · exact ⟨le_refl _, n, hn⟩

lemma shutdown_stop_acc (m : EmulatorManager) (ts fb : String)
    (draws : PowerDraws) (k : ℤ) (hk : m.accumulated_distance = (k : ℚ)) :
    (shutdown_stop m ts fb draws).accumulated_distance
      = m.accumulated_distance := by
  rw [shutdown_stop]
  show (generate_power_log m m.mdn false ts fb draws).2.accumulated_distance
    = m.accumulated_distance
  rw [generate_power_log_off_acc]
  split_ifs
  · rw [hk, truncInt_intCast]
  · rfl

lemma route_exhausted_shutdown_acc (distf bearingf : ℚ → ℚ → ℚ → ℚ → ℚ)
    (hd : ∀ a b c e, 0 ≤ distf a b c e) (m : EmulatorManager)
    (ts fb : String) (pdr : PowerDraws) (n : ℤ)
    (hn : m.accumulated_distance = (n : ℚ)) :
    m.accumulated_distance
      ≤ (route_exhausted_shutdown distf bearingf m ts pdr fb).accumulated_distance := by
  obtain ⟨hle, k, hk⟩ := shutdown_flush_acc distf bearingf hd m ts n hn
  rw [route_exhausted_shutdown,
    shutdown_stop_acc (shutdown_flush distf bearingf m ts) ts fb pdr k hk]
  exact hle

lemma update_position_active_acc (distf bearingf : ℚ → ℚ → ℚ → ℚ → ℚ)
    (hd : ∀ a b c e, 0 ≤ distf a b c e) (m : EmulatorManager)
    (ts fb : String) (pdr : PowerDraws) (n : ℤ)
    (hn : m.accumulated_distance = (n : ℚ)) :
    m.accumulated_distance
      ≤ (update_position_active distf bearingf m ts pdr fb).1.accumulated_distance := by
  simp only [update_position_active]
  split_ifs with h1 h2 h3
  · exact le_refl _
  · exact route_exhausted_shutdown_acc distf bearingf hd _ ts fb pdr n hn
  · exact le_refl _
  · exact route_exhausted_shutdown_acc distf bearingf hd _ ts fb pdr n hn

lemma create_gps_log_length (distf bearingf : ℚ → ℚ → ℚ → ℚ → ℚ)
    (m : EmulatorManager) (mdn : String) (cd : List CollectedPoint)
    (ts : String) :
    ∀ req, (create_gps_log_from_collected_data distf bearingf m mdn cd ts).1
        = some req → req.cList.length = cd.length := by
  intro req h
  rw [create_gps_log_from_collected_data] at h
  split_ifs at h with h1 h2
  all_goals
    first
    | (simp at h
       done)
    | (simp only [Option.some.injEq] at h
       rw [← h]
       exact encode_points_length distf bearingf cd none _)

/-- **C4.** Odometer invariants: (i) a position update with a nonnegative
movement distance never decreases the odometer (`update_emulator_position`
adds the distance only when it is positive); (ii) a tick while the emulator
is inactive leaves the state unchanged; (iii) a tick while active never
decreases the integer-valued odometer, through every branch including the
route-exhaustion shutdown; (iv) encoding a batch of collected samples never
decreases the odometer; (v) every collected sample yields an entry (the
position is always accepted into the batch); (vi) a per-sample movement
above 80 m contributes nothing to the accumulated total (while its entry is
still emitted, by (v)). -/
theorem odometer_monotone
    (m : EmulatorManager) (lat lon d : ℚ)
    (distf bearingf : ℚ → ℚ → ℚ → ℚ → ℚ)
    (hd : ∀ a b c e, 0 ≤ distf a b c e)
    (mdn time_str fb : String) (cd : List CollectedPoint)
    (n : ℤ) (hn : m.accumulated_distance = (n : ℚ))
    (m' : EmulatorManager) (hm' : m'.is_active = false)
    (pdr : PowerDraws) (pd data : CollectedPoint) (total : ℚ)
    (hbig : 80 < distf pd.latitude pd.longitude data.latitude data.longitude) :
    m.accumulated_distance
      ≤ (update_emulator_position m lat lon d).accumulated_distance ∧
    update_position distf bearingf m' time_str pdr fb = (m', false) ∧
    m.accumulated_distance
      ≤ (update_position distf bearingf m time_str pdr fb).1.accumulated_distance ∧
    m.accumulated_distance
      ≤ (create_gps_log_from_collected_data distf bearingf m mdn cd
          time_str).2.accumulated_distance ∧
    (∀ req, (create_gps_log_from_collected_data distf bearingf m mdn cd
        time_str).1 = some req → req.cList.length = cd.length) ∧
    (encode_step distf bearingf (some pd) total data).2.2 = total := by
  refine ⟨?_, ?_, ?_, ?_, ?_, ?_⟩
  · simp only [update_emulator_position]
    split_ifs with h
    · dsimp only
      linarith
    · exact le_refl _
  · simp [update_position, hm']
  · rw [update_position]
    by_cases hact : m.is_active
    · rw [if_neg (by simp [hact])]
      by_cases hres : |m.last_latitude| < 1
      · rw [if_pos hres]
        exact update_position_active_acc distf bearingf hd _ time_str fb pdr n hn
      · rw [if_neg hres]
        exact update_position_active_acc distf bearingf hd _ time_str fb pdr n hn
    · rw [if_pos (by simp [hact])]
  · exact (create_gps_log_acc distf bearingf hd m mdn cd time_str n hn).1
  · exact create_gps_log_length distf bearingf m mdn cd time_str
  · exact encode_step_skip_over80 distf bearingf pd total data hbig

/-- Witness for C4 at a concrete state: monotone position update, identity
tick on an inactive manager, and an 81 m jump leaving the total unchanged. -/
theorem odometer_monotone_witness :
    sampleManager.accumulated_distance
      ≤ (update_emulator_position sampleManager 1 2 1).accumulated_distance ∧
    update_position (fun _ _ _ _ => (81 : ℚ)) (fun _ _ _ _ => 0)
        { sampleManager with is_active := false } "t" ⟨true, 0, 0⟩ "fb"
      = ({ sampleManager with is_active := false }, false) ∧
    (encode_step (fun _ _ _ _ => (81 : ℚ)) (fun _ _ _ _ => 0)
        (some { timestamp := ⟨0, 0, 0⟩, latitude := 0, longitude := 0,
                speed := 0, angle := 0, battery := 90 }) 7
        { timestamp := ⟨1, 0, 1⟩, latitude := 1, longitude := 1,
          speed := 0, angle := 0, battery := 90 }).2.2 = 7 := by
  have h := odometer_monotone sampleManager 1 2 1 (fun _ _ _ _ => (81 : ℚ))
    (fun _ _ _ _ => 0) (fun _ _ _ _ => by norm_num) "01012345678" "t" "fb" [] 0 rfl
    { sampleManager with is_active := false } rfl ⟨true, 0, 0⟩
    { timestamp := ⟨0, 0, 0⟩, latitude := 0, longitude := 0,
      speed := 0, angle := 0, battery := 90 }
    { timestamp := ⟨1, 0, 1⟩, latitude := 1, longitude := 1,
      speed := 0, angle := 0, battery := 90 } 7 (by norm_num)
  exact ⟨h.1, h.2.1, h.2.2.2.2.2⟩

lemma movement_attempts_valid_nonneg (distf : ℚ → ℚ → ℚ → ℚ → ℚ)
    (hd : ∀ a b c e, 0 ≤ distf a b c e) (la lo : ℚ) :
    ∀ cands, (movement_attempts distf la lo cands).2.2.2 = true →
      0 ≤ (movement_attempts distf la lo cands).2.2.1 := by
  intro cands
  induction cands with
  | nil => intro h; simp [movement_attempts] at h
  | cons mv rest ih =>
    intro h
    rw [movement_attempts] at h ⊢
    split_ifs at h ⊢ with h1 h2
    · exact hd _ _ _ _
    · exact ih h

lemma gps_second_step_acc_le (distf : ℚ → ℚ → ℚ → ℚ → ℚ)
    (hd : ∀ a b c e, 0 ≤ distf a b c e) (la lo acc : ℚ)
    (mv : List (ℚ × ℚ)) :
    acc ≤ (gps_second_step distf la lo acc mv).2.2.2.2 := by
  rw [gps_second_step]
  split_ifs with h
  · have := movement_attempts_valid_nonneg distf hd la lo (mv.take 5) h
    dsimp only
    linarith
  · exact le_refl _

lemma gps_items_sum_field (distf : ℚ → ℚ → ℚ → ℚ → ℚ)
    (hd : ∀ a b c e, 0 ≤ distf a b c e) (m : EmulatorManager)
    (mdn status : String) (hstat : ¬ status = "0") :
    ∀ (draws : List GpsSecondDraws) (i : ℕ) (la lo acc : ℚ), 0 ≤ acc →
      ∀ item ∈ (gps_items distf m mdn status i la lo acc draws).1,
        ∃ a, 0 ≤ a ∧ item.sum = gps_sum_field m mdn a := by
  intro draws
  induction draws with
  | nil => intro i la lo acc hacc item hitem; simp [gps_items] at hitem
  | cons dr rest ih =>
    intro i la lo acc hacc item hitem
    rw [gps_items, if_neg hstat] at hitem
    rcases List.mem_cons.mp hitem with hhd | htl
    · refine ⟨(gps_second_step distf la lo acc dr.moves).2.2.2.2,
        le_trans hacc (gps_second_step_acc_le distf hd la lo acc dr.moves), ?_⟩
      rw [hhd]
    · exact ih (i + 1) _ _ _
        (le_trans hacc (gps_second_step_acc_le distf hd la lo acc dr.moves)) item htl

lemma truncInt_le_of_le (q : ℚ) (z : ℤ) (hz : 0 ≤ z) (h : q ≤ (z : ℚ)) :
    truncInt q ≤ z := by
  rcases le_or_lt 0 q with hq | hq
  · rw [truncInt_eq_floor q hq]
    exact_mod_cast le_trans (Int.floor_le q) h
  · rw [truncInt_eq_ceil q hq.le]
    have hc : (⌈q⌉ : ℤ) ≤ 0 := by
      rw [Int.ceil_le]
      exact_mod_cast hq.le
    exact le_trans hc hz

lemma truncInt_nine_millions : truncInt ((9999999 : ℚ)) = (9999999 : ℤ) := by
  have h := truncInt_intCast 9999999
  have hc : (((9999999 : ℤ) : ℚ)) = (9999999 : ℚ) := by norm_num
  rw [hc] at h
  exact h

lemma gps_sum_field_bounded (m : EmulatorManager) (mdn : String) (acc : ℚ) :
    ∃ k : ℤ, gps_sum_field m mdn acc = toString k ∧ k ≤ 9999999 := by
  rw [gps_sum_field]
  split_ifs with h
  · exact ⟨9999999, by rw [truncInt_nine_millions], le_refl _⟩
  · push_neg at h
    exact ⟨_, rfl, truncInt_le_of_le _ _ (by norm_num) h⟩

lemma gps_sum_field_clamped (m : EmulatorManager) (mdn : String) (acc : ℚ)
    (hacc : 0 ≤ acc)
    (hbig : get_accumulated_distance m (some mdn) > 9999999) :
    gps_sum_field m mdn acc = "9999999" := by
  rw [gps_sum_field]
  have h1 : (0 : ℤ) ≤ truncInt acc := by
    rw [truncInt_eq_floor _ hacc]
    exact Int.floor_nonneg.mpr hacc
  have h2 : get_accumulated_distance m (some mdn)
      + ((truncInt acc : ℤ) : ℚ) > 9999999 := by
    have : (0 : ℚ) ≤ ((truncInt acc : ℤ) : ℚ) := by exact_mod_cast h1
    linarith
  rw [if_pos h2, truncInt_nine_millions]
  rfl

lemma encode_points_head_sum (distf bearingf : ℚ → ℚ → ℚ → ℚ → ℚ)
    (total : ℚ) (data : CollectedPoint) (rest : List CollectedPoint) :
    ((encode_points distf bearingf none total (data :: rest)).1.head?).map
      GpsLogItem.sum = some (toString (truncInt total)) := by
  simp [encode_points, encode_step]

/-- **C8 (amended).**  The odometer clamp at 9,999,999 m exists only in the
`services` generator's valid-fix entries: there every `sum` field is a
clamped integer (never above 9,999,999, and exactly `"9999999"` once the
stored odometer exceeds it).  The batch encoder
`create_gps_log_from_collected_data` emits the raw running total with no
clamp: its first entry's `sum` is the stored odometer verbatim, however
large. -/
theorem gps_sum_clamping (distf bearingf : ℚ → ℚ → ℚ → ℚ → ℚ)
    (hd : ∀ a b c e, 0 ≤ distf a b c e) (m : EmulatorManager)
    (mdn status ts : String) (draws : List GpsSecondDraws)
    (hstat : ¬ status = "0") (m2 : EmulatorManager) (mdn2 ts2 : String)
    (data : CollectedPoint) (rest : List CollectedPoint) :
    (∀ req, (generate_gps_log distf m mdn status draws ts).1 = some req →
      ∀ item ∈ req.cList, ∃ a, 0 ≤ a ∧ item.sum = gps_sum_field m mdn a) ∧
    (∀ acc, ∃ k : ℤ, gps_sum_field m mdn acc = toString k ∧ k ≤ 9999999) ∧
    (∀ acc, 0 ≤ acc → get_accumulated_distance m (some mdn) > 9999999 →
      gps_sum_field m mdn acc = "9999999") ∧
    (∀ req, (create_gps_log_from_collected_data distf bearingf m2 mdn2
        (data :: rest) ts2).1 = some req →
      (req.cList.head?).map GpsLogItem.sum
        = some (toString (truncInt (get_accumulated_distance m2 (some mdn2))))) := by
  refine ⟨?_, fun acc => gps_sum_field_bounded m mdn acc,
    fun acc h1 h2 => gps_sum_field_clamped m mdn acc h1 h2, ?_⟩
  · intro req hreq item hitem
    rw [generate_gps_log] at hreq
    split_ifs at hreq with h1
    all_goals
      first
      | (simp at hreq
         done)
      | (simp only [Option.some.injEq] at hreq
         rw [← hreq] at hitem
         exact gps_items_sum_field distf hd m mdn status hstat draws 0
           m.last_latitude m.last_longitude 0 (le_refl 0) item hitem)
  · intro req hreq
    by_cases h1 : mdn2 = "" ∨ (data :: rest : List CollectedPoint) = []
    · rw [create_gps_log_from_collected_data, if_pos h1] at hreq
      simp at hreq
    · by_cases h2 : is_emulator_active m2 (some mdn2)
      · rw [create_gps_log_from_collected_data, if_neg h1,
          if_neg (by simpa using h2)] at hreq
        simp only [Option.some.injEq] at hreq
        rw [← hreq]
        exact encode_points_head_sum distf bearingf _ data rest
      · rw [create_gps_log_from_collected_data, if_neg h1,
          if_pos (by simpa using h2)] at hreq
        simp at hreq

/-- Witness for C8: with the stored odometer at 10,000,000 m the
`services` generator's `sum` field is clamped to `"9999999"`. -/
theorem gps_sum_clamping_witness :
    gps_sum_field { sampleManager with accumulated_distance := 10000000 }
      "01012345678" 0 = "9999999" := by
  have h := gps_sum_clamping (fun _ _ _ _ => 0) (fun _ _ _ _ => 0)
    (fun _ _ _ _ => le_refl 0)
    { sampleManager with accumulated_distance := 10000000 }
    "01012345678" "A" "t" [] (by decide) sampleManager "01012345678" "t"
    { timestamp := ⟨0, 0, 0⟩, latitude := 0, longitude := 0,
      speed := 0, angle := 0, battery := 90 } []
  exact h.2.2.1 0 (le_refl 0)
    (by norm_num [get_accumulated_distance, sampleManager])

/-- **C8 counterexample.**  The batch encoder emits `"10000000"`, not
`"9999999"`, when the stored odometer is 10,000,000 m: the clamp claimed
for every encoded entry is absent on this path. -/
theorem create_gps_log_sum_unclamped :
    (10000000 : ℚ) > 9999999 ∧
    ∃ req,
      (create_gps_log_from_collected_data (fun _ _ _ _ => 0) (fun _ _ _ _ => 0)
          { sampleManager with accumulated_distance := 10000000 } "01012345678"
          [{ timestamp := ⟨0, 0, 0⟩, latitude := 375/10, longitude := 127,
             speed := 0, angle := 0, battery := 90 }] "t").1 = some req ∧
      (req.cList.head?).map GpsLogItem.sum = some "10000000" ∧
      ("10000000" : String) ≠ "9999999" := by
  refine ⟨by norm_num, _, rfl, ?_, by decide⟩
  rfl

lemma gps_items_zero (distf : ℚ → ℚ → ℚ → ℚ → ℚ) (m : EmulatorManager)
    (mdn : String) :
    ∀ (draws : List GpsSecondDraws) (i : ℕ) (la lo acc : ℚ),
      ∀ item ∈ (gps_items distf m mdn "0" i la lo acc draws).1,
        item.gcd = "0" ∧ item.lat = "0" ∧ item.lon = "0" ∧ item.ang = "0" ∧
        item.spd = "0" ∧
        item.sum = toString (truncInt (get_accumulated_distance m (some mdn))) := by
  intro draws
  induction draws with
  | nil => intro i la lo acc item hitem; simp [gps_items] at hitem
  | cons dr rest ih =>
    intro i la lo acc item hitem
    rw [gps_items, if_pos rfl] at hitem
    rcases List.mem_cons.mp hitem with hhd | htl
    · rw [hhd]
      exact ⟨rfl, rfl, rfl, rfl, rfl, rfl⟩
    · exact ih (i + 1) la lo acc item htl

/-- **C3 (amended).**  In `generate_gps_log`, a batch drawn with fix status
`"0"` zeroes `lat`, `lon`, `ang` and `spd` on every entry, but the `sum`
field carries the stored odometer (`str(int(get_accumulated_distance))`),
not `"0"`.  In `batch_gps_data_points`, a point with fix code `"0"` has
only `lat` and `lon` forced to `"0"`; `ang`, `spd` and `sum` still carry
the point's own heading, speed and accumulated distance. -/
theorem zero_status_fields (distf : ℚ → ℚ → ℚ → ℚ → ℚ) (m : EmulatorManager)
    (mdn ts : String) (draws : List GpsSecondDraws) (pts : List BatchPoint)
    (mdn3 tid : String) (mid3 pv3 did3 : ℤ) (ot : String) :
    (∀ req, (generate_gps_log distf m mdn "0" draws ts).1 = some req →
      ∀ item ∈ req.cList,
        item.gcd = "0" ∧ item.lat = "0" ∧ item.lon = "0" ∧ item.ang = "0" ∧
        item.spd = "0" ∧
        item.sum = toString (truncInt (get_accumulated_distance m (some mdn)))) ∧
    (∀ req, batch_gps_data_points mdn3 pts tid mid3 pv3 did3 ot = some req →
      ∀ p ∈ pts, p.gcd = "0" →
        ∃ item ∈ req.cList,
          item.gcd = "0" ∧ item.lat = "0" ∧ item.lon = "0" ∧
          item.ang = toString p.heading ∧
          item.spd = toString (truncInt p.speed) ∧
          item.sum = toString p.accumulated_distance) := by
  constructor
  · intro req hreq item hitem
    rw [generate_gps_log] at hreq
    split_ifs at hreq with h1
    all_goals
      first
      | (simp at hreq
         done)
      | (simp only [Option.some.injEq] at hreq
         rw [← hreq] at hitem
         exact gps_items_zero distf m mdn draws 0
           m.last_latitude m.last_longitude 0 item hitem)
  · intro req hreq p hp hgcd
    by_cases h1 : pts = []
    · rw [batch_gps_data_points, if_pos h1] at hreq
      simp at hreq
    · rw [batch_gps_data_points, if_neg h1] at hreq
      simp only [Option.some.injEq] at hreq
      rw [← hreq]
      refine ⟨_, List.mem_map_of_mem _ hp, ?_⟩
      simp [hgcd]

/-- Witness for C3 amended: the single entry of a concrete no-fix batch. -/
theorem zero_status_fields_witness :
    ∃ req,
      (generate_gps_log (fun _ _ _ _ => 0)
          { sampleManager with accumulated_distance := 5 } "01012345678" "0"
          [⟨[], 0, 0, 12⟩] "t").1 = some req ∧
      (req.cList.head?).map GpsLogItem.lat = some "0" ∧
      (req.cList.head?).map GpsLogItem.sum
        = some (toString (truncInt (get_accumulated_distance
            { sampleManager with accumulated_distance := 5 }
            (some "01012345678")))) := by
  refine ⟨_, rfl, ?_, ?_⟩
  · rw [Option.map_eq_some']
    refine ⟨_, rfl, ?_⟩
    exact ((zero_status_fields (fun _ _ _ _ => 0)
        { sampleManager with accumulated_distance := 5 } "01012345678" "t"
        [⟨[], 0, 0, 12⟩] ([] : List BatchPoint) "m" "t" 1 1 1 "o").1
      _ rfl _ (List.mem_of_mem_head? (Option.mem_def.mpr rfl))).2.1
  · rw [Option.map_eq_some']
    refine ⟨_, rfl, ?_⟩
    exact ((zero_status_fields (fun _ _ _ _ => 0)
        { sampleManager with accumulated_distance := 5 } "01012345678" "t"
        [⟨[], 0, 0, 12⟩] ([] : List BatchPoint) "m" "t" 1 1 1 "o").1
      _ rfl _ (List.mem_of_mem_head? (Option.mem_def.mpr rfl))).2.2.2.2.2

/-- **C3 counterexample.**  A no-fix batch generated with the odometer at
5 m emits `sum = "5"`, not `"0"`: the claim that the distance field is also
forced to `"0"` fails. -/
theorem zero_status_sum_not_zero :
    ∃ req,
      (generate_gps_log (fun _ _ _ _ => 0)
          { sampleManager with accumulated_distance := 5 } "01012345678" "0"
          [⟨[], 0, 0, 12⟩] "t").1 = some req ∧
      (req.cList.head?).map GpsLogItem.gcd = some "0" ∧
      (req.cList.head?).map GpsLogItem.sum = some "5" ∧
      some ("5" : String) ≠ some "0" := by
  refine ⟨_, rfl, ?_, ?_, by decide⟩
  · rfl
  · rfl
